import Mathlib

/-!
# Overtime tracker (`script.js`) and its Cloudflare Worker API (`worker.js`)

A shallow embedding of the data-carrying parts of the two source files:

* JSON values, with the JavaScript notions the code relies on (truthiness, own
  property order, the `Object.prototype` chain seen by `merged[month]`);
* the client: `mergeData`, the day-status transition of `handleDayClick`,
  `uploadData`, `syncData`, `saveDayStatus`, `resetCurrentMonth` and `importData`;
* the worker: `handleRegister`, `handleLogin`, `handleGetData`, `handleSaveData`
  over an explicit key-value namespace (`OVERTIME_DATA`).

Platform functions that the repository calls but does not define (`JSON.stringify`,
`JSON.parse`, the SHA-256 digest) are parameters, collected in `Platform`.
-/

namespace Jb2

/-! ## JSON values -/

/-- A JavaScript value as produced by `JSON.parse` (numbers are kept as integers: the
code only ever asks a number for its type and its truthiness). -/
inductive Json where
  | null
  | bool (b : Bool)
  | num (n : Int)
  | str (s : String)
  | arr (xs : List Json)
  | obj (kvs : List (String × Json))

mutual
/-- Decision procedure for equality of JSON values. -/
def Json.decEq : (a b : Json) → Decidable (a = b)
  | .null, .null => isTrue rfl
  | .bool a, .bool b =>
    if h : a = b then isTrue (by rw [h]) else isFalse (by intro e; cases e; exact h rfl)
  | .num a, .num b =>
    if h : a = b then isTrue (by rw [h]) else isFalse (by intro e; cases e; exact h rfl)
  | .str a, .str b =>
    if h : a = b then isTrue (by rw [h]) else isFalse (by intro e; cases e; exact h rfl)
  | .arr a, .arr b =>
    match Json.decEqList a b with
    | isTrue h => isTrue (by rw [h])
    | isFalse h => isFalse (by intro e; cases e; exact h rfl)
  | .obj a, .obj b =>
    match Json.decEqMembers a b with
    | isTrue h => isTrue (by rw [h])
    | isFalse h => isFalse (by intro e; cases e; exact h rfl)
  | .null, .bool _ | .null, .num _ | .null, .str _ | .null, .arr _ | .null, .obj _
  | .bool _, .null | .bool _, .num _ | .bool _, .str _ | .bool _, .arr _ | .bool _, .obj _
  | .num _, .null | .num _, .bool _ | .num _, .str _ | .num _, .arr _ | .num _, .obj _
  | .str _, .null | .str _, .bool _ | .str _, .num _ | .str _, .arr _ | .str _, .obj _
  | .arr _, .null | .arr _, .bool _ | .arr _, .num _ | .arr _, .str _ | .arr _, .obj _
  | .obj _, .null | .obj _, .bool _ | .obj _, .num _ | .obj _, .str _ | .obj _, .arr _ =>
    isFalse (by intro e; cases e)
/-- Decision procedure for equality of arrays. -/
def Json.decEqList : (a b : List Json) → Decidable (a = b)
  | [], [] => isTrue rfl
  | [], _ :: _ | _ :: _, [] => isFalse (by intro e; cases e)
  | x :: xs, y :: ys =>
    match Json.decEq x y, Json.decEqList xs ys with
    | isTrue h, isTrue h' => isTrue (by rw [h, h'])
    | isFalse h, _ => isFalse (by intro e; cases e; exact h rfl)
    | _, isFalse h => isFalse (by intro e; cases e; exact h rfl)
/-- Decision procedure for equality of property lists. -/
def Json.decEqMembers : (a b : List (String × Json)) → Decidable (a = b)
  | [], [] => isTrue rfl
  | [], _ :: _ | _ :: _, [] => isFalse (by intro e; cases e)
  | (k, x) :: xs, (l, y) :: ys =>
    if hk : k = l then
      match Json.decEq x y, Json.decEqMembers xs ys with
      | isTrue h, isTrue h' => isTrue (by rw [hk, h, h'])
      | isFalse h, _ => isFalse (by intro e; cases e; exact h rfl)
      | _, isFalse h => isFalse (by intro e; cases e; exact h rfl)
    else isFalse (by intro e; cases e; exact hk rfl)
end

instance : DecidableEq Json := Json.decEq

/-- The own properties of an object, in enumeration order. -/
abbrev Members := List (String × Json)

/-- The property names of an object. -/
def keys (m : Members) : List String := m.map Prod.fst

/-- JavaScript `ToBoolean`: what `!v` negates. -/
def Json.truthy : Json → Bool
  | .null => false
  | .bool b => b
  | .num n => n != 0
  | .str s => s != ""
  | .arr _ => true
  | .obj _ => true

/-- The check `typeof v !== 'object' || v === null` of `handleSaveData`, negated:
`typeof` is `'object'` for `null`, arrays and plain objects. -/
def Json.isNonNullObject : Json → Bool
  | .arr _ => true
  | .obj _ => true
  | _ => false

/-- A JSON mapping (a plain object). -/
def Json.isMapping : Json → Bool
  | .obj _ => true
  | _ => false

/-- The property names every plain object inherits from `Object.prototype`; each of them
reads as a truthy value (a function, or the prototype itself for `__proto__`). -/
def objectPrototypeKeys : List String :=
  ["constructor", "__defineGetter__", "__defineSetter__", "hasOwnProperty",
   "__lookupGetter__", "__lookupSetter__", "isPrototypeOf", "propertyIsEnumerable",
   "toString", "valueOf", "__proto__", "toLocaleString"]

/-- The test `merged[month]` read as a condition: an own property decides by its value,
otherwise the lookup continues in `Object.prototype`. -/
def propTruthy (m : Members) (k : String) : Bool :=
  match m.lookup k with
  | some v => v.truthy
  | none => objectPrototypeKeys.contains k

/-- Property keys that are array indices (canonical decimal numerals below `2^32 - 1`)
are enumerated first, in ascending numeric order; this gives the index of such a key. -/
def arrayIndex? (k : String) : Option Nat :=
  let cs := k.data
  if !cs.isEmpty && cs.all Char.isDigit && (cs.head? != some '0' || cs.length == 1) then
    let n := cs.foldl (fun a c => 10 * a + (c.toNat - 48)) 0
    if n < 4294967295 then some n else none
  else none

/-- Place a new array-index key `k` (index `i`) among the properties: after the index keys
below it, before everything else. -/
def insertIndexed (i : Nat) (k : String) (v : Json) : Members → Members
  | [] => [(k, v)]
  | (k', v') :: rest =>
    match arrayIndex? k' with
    | some j =>
      if j < i then (k', v') :: insertIndexed i k v rest else (k, v) :: (k', v') :: rest
    | none => (k, v) :: (k', v') :: rest

/-- The assignment `o[k] = v` on a plain object: an existing property keeps its place, a new
one is added (at the end, unless it is an array index). -/
def setProp (m : Members) (k : String) (v : Json) : Members :=
  if (keys m).contains k then m.map (fun p => if p.1 = k then (k, v) else p)
  else
    match arrayIndex? k with
    | some i => insertIndexed i k v m
    | none => m ++ [(k, v)]

/-- Number the elements of a list from `i` on, as property keys. -/
def indexed (i : Nat) : List Json → Members
  | [] => []
  | x :: xs => (toString i, x) :: indexed (i + 1) xs

/-- The own enumerable string-keyed properties of a non-null value after `ToObject`: the
properties of an object, the elements of an array and the characters of a string under their
indices (exact for text in the Basic Multilingual Plane), nothing for numbers and booleans. -/
def ownEnumerable : Json → Members
  | .obj kvs => kvs
  | .arr xs => indexed 0 xs
  | .str s => indexed 0 (s.data.map (fun c => Json.str (String.singleton c)))
  | _ => []

/-- The object literal `{ ...x }`: every own enumerable property of `x` is defined on a fresh
object, in order (`null` contributes nothing). -/
def spread (x : Json) : Members :=
  (ownEnumerable x).foldl (fun acc p => setProp acc p.1 p.2) []

/-- The result of `Object.entries(x)`: a `TypeError` (`none`) for `null`. -/
def objectEntries : Json → Option Members
  | .null => none
  | x => some (ownEnumerable x)

/-! ## `script.js`: merge and day-status transition -/

/-- One iteration of the loop of `mergeData`: `if (!merged[month]) merged[month] = days`. -/
def mergeStep (merged : Members) (entry : String × Json) : Members :=
  if !propTruthy merged entry.1 then setProp merged entry.1 entry.2 else merged

/-- `OvertimeTracker.mergeData(localData, serverData)`; `none` is the `TypeError` thrown
by `Object.entries(null)`. -/
def mergeData (localData serverData : Json) : Option Json :=
  let merged := spread serverData
  match objectEntries localData with
  | none => none
  | some entries => some (Json.obj (entries.foldl mergeStep merged))

/-- The `switch` of `handleDayClick`, from the displayed status to the next one. -/
def nextStatus (currentStatus : String) : String :=
  if currentStatus = "normal" then "half"
  else if currentStatus = "half" then "full"
  else "normal"


/-! ## Datasets -/

/-- The numerals `getMonth() + 1` can print. -/
def monthNumerals : List String :=
  ["1", "2", "3", "4", "5", "6", "7", "8", "9", "10", "11", "12"]

/-- A month-key, as built by the template `year-month` in `saveDayStatus`: the digits of a
year, a hyphen and a month numeral. -/
def isMonthKey (k : String) : Bool :=
  match k.data.span Char.isDigit with
  | (y, '-' :: m) => !y.isEmpty && monthNumerals.contains (String.mk m)
  | _ => false

/-- A dataset: distinct month-keys, each mapped to a day mapping (a plain object). -/
def IsDataset (m : Members) : Prop :=
  (keys m).Nodup ∧ ∀ p ∈ m, isMonthKey p.1 = true ∧ p.2.isMapping = true

instance (m : Members) : Decidable (IsDataset m) := by
  unfold IsDataset; infer_instance

/-! ## Platform -/

/-- The platform functions the two files call: `JSON.stringify`, `JSON.parse` (`none` is a
thrown `SyntaxError`) and the SHA-256 digest of the UTF-8 encoding of a text, as bytes. -/
structure Platform where
  jsonStringify : Json → String
  jsonParse : String → Option Json
  sha256 : String → List Nat

/-- The platform's JSON text of `v` is a non-empty text that parses back to `v`. -/
def Platform.RoundTrips (P : Platform) (v : Json) : Prop :=
  P.jsonStringify v ≠ "" ∧ P.jsonParse (P.jsonStringify v) = some v

instance (P : Platform) (v : Json) : Decidable (P.RoundTrips v) := by
  unfold Platform.RoundTrips; infer_instance

/-- The `length` of a JavaScript string: its number of UTF-16 code units. -/
def jsLength (s : String) : Nat :=
  (s.data.map (fun c => if c.toNat < 65536 then 1 else 2)).sum

/-- A value read back from storage or a header (`null` or a text), filtered by the test
`!x`: `null` and the empty text are falsy. -/
def truthyText (x : Option String) : Option String :=
  match x with
  | none => none
  | some s => if s = "" then none else some s

/-! ## The key-value namespace `OVERTIME_DATA` -/

/-- What `put` records under a key: the text and the `expirationTtl` option, in seconds. -/
structure KVEntry where
  value : String
  expirationTtl : Option Nat
  deriving DecidableEq

/-- The live entries of the namespace (an expired key is one the namespace no longer holds). -/
abbrev KV := List (String × KVEntry)

/-- `OVERTIME_DATA.get(key)`: the text under the key, or `null`. -/
def kvGet (kv : KV) (key : String) : Option String :=
  (kv.lookup key).map KVEntry.value

/-- `OVERTIME_DATA.put(key, value, options)`: the key now holds exactly this entry. -/
def kvPut (kv : KV) (key value : String) (expirationTtl : Option Nat) : KV :=
  if (kv.map Prod.fst).contains key then
    kv.map (fun e => if e.1 = key then (key, ⟨value, expirationTtl⟩) else e)
  else kv ++ [(key, ⟨value, expirationTtl⟩)]

/-! ## `worker.js` -/

/-- A `Response`: status code and body text. -/
structure Response where
  status : Nat
  body : String
  deriving DecidableEq

/-- `jsonResponse(data, status)`. -/
def jsonResponse (P : Platform) (data : Json) (status : Nat) : Response :=
  ⟨status, P.jsonStringify data⟩

/-- The body `{ error: message }` of a failure response. -/
def errorBody (message : String) : Json :=
  Json.obj [("error", Json.str message)]

/-- `getTokenFromRequest`, on the value of `request.headers.get('Authorization')`. -/
def getTokenFromRequest (authorization : Option String) : Option String :=
  match truthyText authorization with
  | none => none
  | some authHeader =>
    if "Bearer ".data.isPrefixOf authHeader.data then some (String.mk (authHeader.data.drop 7))
    else none

/-- `b.toString(16).padStart(2, '0')` for a byte of the digest. -/
def hexByte (b : Nat) : String :=
  let digits := Nat.toDigits 16 b
  String.mk (List.replicate (2 - digits.length) '0' ++ digits)

/-- `simpleHash(str)`: the digest bytes in hexadecimal, joined. -/
def simpleHash (P : Platform) (str : String) : String :=
  String.join ((P.sha256 str).map hexByte)

/-- `generateToken(username)`, given the values of `Date.now()` and of
`Math.random().toString(36).substring(2)`. -/
def generateToken (timestamp : Nat) (random username : String) : String :=
  toString timestamp ++ "-" ++ random ++ "-" ++ username

/-- The `expirationTtl` of a token: `60 * 60 * 24 * 30` seconds. -/
def tokenTtl : Nat := 60 * 60 * 24 * 30

/-- `handleRegister`, on a request body `{ username, password }` of two strings; `now` is
`new Date().toISOString()`. Returns the response and the namespace afterwards. -/
def handleRegister (P : Platform) (now : String) (kv : KV) (username password : String) :
    Response × KV :=
  if username = "" ∨ password = "" then
    (jsonResponse P (errorBody "用户名和密码不能为空") 400, kv)
  else if jsLength username < 3 ∨ jsLength username > 20 then
    (jsonResponse P (errorBody "用户名长度应为3-20个字符") 400, kv)
  else if jsLength password < 6 then
    (jsonResponse P (errorBody "密码长度至少为6位") 400, kv)
  else
    match truthyText (kvGet kv ("user:" ++ username)) with
    | some _ => (jsonResponse P (errorBody "用户名已存在") 409, kv)
    | none =>
      let userData := Json.obj [("username", Json.str username),
        ("passwordHash", Json.str (simpleHash P password)), ("createdAt", Json.str now)]
      (jsonResponse P (Json.obj [("message", Json.str "注册成功")]) 200,
        kvPut kv ("user:" ++ username) (P.jsonStringify userData) none)

/-- The read `user.passwordHash` on a parsed value: a `TypeError` (`none`) on `null`, the own
property of an object, `undefined` (`some none`) otherwise. -/
def readPasswordHash : Json → Option (Option Json)
  | .null => none
  | .obj kvs => some (kvs.lookup "passwordHash")
  | _ => some none

/-- `handleLogin`, on a request body `{ username, password }` of two strings; `timestamp` and
`random` feed `generateToken`. -/
def handleLogin (P : Platform) (timestamp : Nat) (random : String) (kv : KV)
    (username password : String) : Response × KV :=
  if username = "" ∨ password = "" then
    (jsonResponse P (errorBody "用户名和密码不能为空") 400, kv)
  else
    match truthyText (kvGet kv ("user:" ++ username)) with
    | none => (jsonResponse P (errorBody "用户不存在") 404, kv)
    | some userData =>
      match (P.jsonParse userData).bind readPasswordHash with
      | none => (jsonResponse P (errorBody "登录失败") 500, kv)
      | some passwordHash =>
        let inputHash := simpleHash P password
        if passwordHash ≠ some (Json.str inputHash) then
          (jsonResponse P (errorBody "密码错误") 401, kv)
        else
          let token := generateToken timestamp random username
          (jsonResponse P (Json.obj [("token", Json.str token), ("username", Json.str username),
              ("message", Json.str "登录成功")]) 200,
            kvPut kv ("token:" ++ token) username (some tokenTtl))

/-- `handleGetData`, on the `Authorization` header of the request. -/
def handleGetData (P : Platform) (kv : KV) (authorization : Option String) : Response × KV :=
  match truthyText (getTokenFromRequest authorization) with
  | none => (jsonResponse P (errorBody "未授权访问") 401, kv)
  | some token =>
    match truthyText (kvGet kv ("token:" ++ token)) with
    | none => (jsonResponse P (errorBody "令牌无效或已过期") 401, kv)
    | some username =>
      match truthyText (kvGet kv ("data:" ++ username)) with
      | none => (jsonResponse P (Json.obj [("data", Json.obj [])]) 200, kv)
      | some userData =>
        match P.jsonParse userData with
        | none => (jsonResponse P (errorBody "获取数据失败") 500, kv)
        | some data => (jsonResponse P (Json.obj [("data", data)]) 200, kv)

/-- `handleSaveData`, on the `Authorization` header and the outcome of `request.json()`
(`none` when the body is not JSON text). -/
def handleSaveData (P : Platform) (kv : KV) (authorization : Option String)
    (body : Option Json) : Response × KV :=
  match truthyText (getTokenFromRequest authorization) with
  | none => (jsonResponse P (errorBody "未授权访问") 401, kv)
  | some token =>
    match truthyText (kvGet kv ("token:" ++ token)) with
    | none => (jsonResponse P (errorBody "令牌无效或已过期") 401, kv)
    | some username =>
      match body with
      | none => (jsonResponse P (errorBody "保存数据失败") 500, kv)
      | some newData =>
        if !newData.isNonNullObject then
          (jsonResponse P (errorBody "数据格式无效") 400, kv)
        else
          (jsonResponse P (Json.obj [("message", Json.str "数据保存成功")]) 200,
            kvPut kv ("data:" ++ username) (P.jsonStringify newData) none)

/-! ## `script.js`: synchronisation -/

/-- The fields of the `OvertimeTracker` instance that synchronisation reads and writes,
with the `overtime_data` item of `localStorage` and the text of the `sync-status` element. -/
structure Tracker where
  overtimeData : Json
  userToken : Option String
  isSyncing : Bool
  lastSyncTime : Option Nat
  storedData : Option String
  syncStatus : String

/-- `uploadData()`: the POST to `/api/data` is served by `handleSaveData`, whose
`request.json()` reads the body text `JSON.stringify(this.overtimeData)`; the response is
ignored. Returns the namespace afterwards. -/
def uploadData (P : Platform) (tracker : Tracker) (kv : KV) : KV :=
  match truthyText tracker.userToken with
  | none => kv
  | some token =>
    (handleSaveData P kv (some ("Bearer " ++ token))
      (P.jsonParse (P.jsonStringify tracker.overtimeData))).2

/-- `response.ok`. -/
def Response.ok (r : Response) : Bool := 200 ≤ r.status && r.status ≤ 299

/-- `syncData()`: the GET to `/api/data` is served by `handleGetData`; `now` is the
`new Date()` taken after the upload. Every exception of the `try` block ends in the `catch`
branch, and `finally` clears `isSyncing`. -/
def syncData (P : Platform) (now : Nat) (tracker : Tracker) (kv : KV) : Tracker × KV :=
  match truthyText tracker.userToken with
  | none => (tracker, kv)
  | some token =>
    if tracker.isSyncing then (tracker, kv)
    else
      let (response, kv1) := handleGetData P kv (some ("Bearer " ++ token))
      let failed : Tracker :=
        { tracker with syncStatus := "同步失败，使用本地数据", isSyncing := false }
      if response.ok then
        match P.jsonParse response.body with
        | none => (failed, kv1)
        | some serverData =>
          match mergeData tracker.overtimeData serverData with
          | none => (failed, kv1)
          | some merged =>
            let synced : Tracker :=
              { tracker with overtimeData := merged, storedData := some (P.jsonStringify merged) }
            let kv2 := uploadData P synced kv1
            let finished : Tracker :=
              { synced with syncStatus := "数据已同步", lastSyncTime := some now }
            ({ finished with isSyncing := false }, kv2)
      else (failed, kv1)

/-! ## `script.js`: local edits and import -/

/-- The month-key template of `saveDayStatus` and `resetCurrentMonth`; `year` and `month`
are `this.currentDate.getFullYear()` and `this.currentDate.getMonth() + 1`. -/
def monthKey (year month : Nat) : String :=
  toString year ++ "-" ++ toString month

/-- The statement `delete o[k]` on a plain object. -/
def deleteProp (m : Members) (k : String) : Members :=
  m.filter (fun p => p.1 != k)

/-- The days recorded under a month-key: the day mapping stored there, none when the
month-key is absent. -/
def dayMapping (d : Members) (key : String) : Members :=
  match d.lookup key with
  | some (Json.obj days) => days
  | _ => []

/-- The mutation of `this.overtimeData` by `saveDayStatus(day, status)` for the month-key
`key`: the month entry is created when the read `this.overtimeData[key]` is falsy; `normal`
deletes the day and then the month when `Object.keys` of it is empty, any other status is
assigned to the day. `none`: the entry under the month-key is not a plain object, a run the
model does not follow. -/
def saveDayStatusData (d : Members) (key : String) (day : Nat) (status : String) :
    Option Members :=
  let created := if !propTruthy d key then setProp d key (Json.obj []) else d
  match created.lookup key with
  | some (Json.obj days) =>
    if status = "normal" then
      let remaining := deleteProp days (toString day)
      if (keys remaining).length = 0 then some (deleteProp created key)
      else some (setProp created key (Json.obj remaining))
    else
      some (setProp created key (Json.obj (setProp days (toString day) (Json.str status))))
  | _ => none

/-- `saveDayStatus(day, status)`: the dataset is updated and written to `localStorage`, then
uploaded when a token is present. `none`: `overtimeData` or the month entry is not a plain
object. -/
def saveDayStatus (P : Platform) (year month : Nat) (tracker : Tracker) (kv : KV) (day : Nat)
    (status : String) : Option (Tracker × KV) :=
  match tracker.overtimeData with
  | Json.obj d =>
    match saveDayStatusData d (monthKey year month) day status with
    | none => none
    | some updated =>
      let saved : Tracker :=
        { tracker with overtimeData := Json.obj updated,
                       storedData := some (P.jsonStringify (Json.obj updated)) }
      match truthyText tracker.userToken with
      | none => some (saved, kv)
      | some _ => some (saved, uploadData P saved kv)
  | _ => none

/-- The statement `delete this.overtimeData[monthKey]` for a month-key: a `TypeError`
(`none`) on `null`, the property removed from an object, no effect on other values (which
have no own property of that name). -/
def deleteMember : Json → String → Option Json
  | .null, _ => none
  | .obj d, k => some (Json.obj (deleteProp d k))
  | v, _ => some v

/-- `resetCurrentMonth()`, given the answer to `confirm(...)`; `none` is the `TypeError` of
the deletion. -/
def resetCurrentMonth (P : Platform) (year month : Nat) (confirmed : Bool) (tracker : Tracker)
    (kv : KV) : Option (Tracker × KV) :=
  if !confirmed then some (tracker, kv)
  else
    match deleteMember tracker.overtimeData (monthKey year month) with
    | none => none
    | some data =>
      let cleared : Tracker :=
        { tracker with overtimeData := data, storedData := some (P.jsonStringify data) }
      match truthyText tracker.userToken with
      | none => some (cleared, kv)
      | some _ => some (cleared, uploadData P cleared kv)

/-- What `importData` leaves behind: the tracker, the namespace and the text of the `alert`
(`null` when no file was chosen). -/
structure ImportOutcome where
  tracker : Tracker
  kv : KV
  alert : Option String

/-- `importData(event)`, on the text of the chosen file (`none`: no file); the body of
`reader.onload` runs with that text. Every exception of the `try` block ends in the `catch`
branch. -/
def importData (P : Platform) (tracker : Tracker) (kv : KV) (file : Option String) :
    ImportOutcome :=
  match file with
  | none => ⟨tracker, kv, none⟩
  | some text =>
    match P.jsonParse text with
    | none => ⟨tracker, kv, some "导入失败：文件格式不正确"⟩
    | some importedData =>
      match mergeData tracker.overtimeData importedData with
      | none => ⟨tracker, kv, some "导入失败：文件格式不正确"⟩
      | some merged =>
        let imported : Tracker :=
          { tracker with overtimeData := merged, storedData := some (P.jsonStringify merged) }
        match truthyText tracker.userToken with
        | none => ⟨imported, kv, some "数据导入成功！"⟩
        | some _ => ⟨imported, uploadData P imported kv, some "数据导入成功！"⟩

/-! ## A reference platform

A compact JSON printer and a recursive-descent reader (integer numbers; the escapes of the
quote, the backslash and the line feed), with a stand-in digest, to run the handlers on
concrete requests. The general theorems hold for every platform. -/

/-- The escape of a character inside a JSON string literal. -/
def escapeChar (c : Char) : List Char :=
  if c = '\x22' then ['\x5c', '\x22']
  else if c = '\x5c' then ['\x5c', '\x5c']
  else if c = '\n' then ['\x5c', 'n']
  else [c]

/-- A string literal. -/
def printString (s : String) : List Char :=
  '\x22' :: (s.data.flatMap escapeChar ++ ['\x22'])

mutual
/-- The compact JSON text of a value. -/
def printValue : Json → List Char
  | .null => "null".data
  | .bool true => "true".data
  | .bool false => "false".data
  | .num n => (toString n).data
  | .str s => printString s
  | .arr xs => '[' :: (printElems xs ++ [']'])
  | .obj kvs => '\x7b' :: (printMembers kvs ++ ['\x7d'])
/-- The elements of an array, separated by commas. -/
def printElems : List Json → List Char
  | [] => []
  | [x] => printValue x
  | x :: y :: rest => printValue x ++ ',' :: printElems (y :: rest)
/-- The members of an object, separated by commas. -/
def printMembers : List (String × Json) → List Char
  | [] => []
  | [(k, x)] => printString k ++ ':' :: printValue x
  | (k, x) :: q :: rest => printString k ++ ':' :: (printValue x ++ ',' :: printMembers (q :: rest))
end

/-- Drop leading white space. -/
def skipSpace : List Char → List Char
  | [] => []
  | c :: cs => if c = ' ' ∨ c = '\n' ∨ c = '\t' ∨ c = '\r' then skipSpace cs else c :: cs

/-- Read a string literal after its opening quote. -/
def readString : List Char → Option (List Char × List Char)
  | [] => none
  | c :: cs =>
    if c = '\x22' then some ([], cs)
    else if c = '\x5c' then
      match cs with
      | [] => none
      | e :: rest =>
        match readString rest with
        | none => none
        | some (s, tail) =>
          if e = 'n' then some ('\n' :: s, tail)
          else if e = '\x22' ∨ e = '\x5c' ∨ e = '/' then some (e :: s, tail)
          else none
    else
      match readString cs with
      | none => none
      | some (s, tail) => some (c :: s, tail)

/-- Read an integer literal. -/
def readNumber (cs : List Char) : Option (Json × List Char) :=
  let (neg, body) := match cs with
    | '-' :: rest => (true, rest)
    | _ => (false, cs)
  let digits := body.takeWhile Char.isDigit
  if digits.isEmpty then none
  else
    let n : Nat := digits.foldl (fun a c => 10 * a + (c.toNat - 48)) 0
    some (Json.num (if neg then -(n : Int) else n), body.dropWhile Char.isDigit)

mutual
/-- Read one value; the fuel bounds the nesting and the number of items. -/
def readValue : Nat → List Char → Option (Json × List Char)
  | 0, _ => none
  | fuel + 1, cs =>
    match skipSpace cs with
    | 'n' :: 'u' :: 'l' :: 'l' :: rest => some (Json.null, rest)
    | 't' :: 'r' :: 'u' :: 'e' :: rest => some (Json.bool true, rest)
    | 'f' :: 'a' :: 'l' :: 's' :: 'e' :: rest => some (Json.bool false, rest)
    | '\x22' :: rest =>
      match readString rest with
      | none => none
      | some (s, tail) => some (Json.str (String.mk s), tail)
    | '[' :: rest =>
      match skipSpace rest with
      | ']' :: tail => some (Json.arr [], tail)
      | _ =>
        match readElems fuel rest with
        | none => none
        | some (xs, tail) => some (Json.arr xs, tail)
    | '\x7b' :: rest =>
      match skipSpace rest with
      | '\x7d' :: tail => some (Json.obj [], tail)
      | _ =>
        match readMembers fuel rest with
        | none => none
        | some (kvs, tail) =>
          some (Json.obj (kvs.foldl (fun acc p => setProp acc p.1 p.2) []), tail)
    | other => readNumber other
/-- Read the elements of an array up to the closing bracket. -/
def readElems : Nat → List Char → Option (List Json × List Char)
  | 0, _ => none
  | fuel + 1, cs =>
    match readValue fuel cs with
    | none => none
    | some (x, rest) =>
      match skipSpace rest with
      | ',' :: tail =>
        match readElems fuel tail with
        | none => none
        | some (xs, tail') => some (x :: xs, tail')
      | ']' :: tail => some ([x], tail)
      | _ => none
/-- Read the members of an object up to the closing brace. -/
def readMembers : Nat → List Char → Option (List (String × Json) × List Char)
  | 0, _ => none
  | fuel + 1, cs =>
    match skipSpace cs with
    | '\x22' :: rest =>
      match readString rest with
      | none => none
      | some (k, afterKey) =>
        match skipSpace afterKey with
        | ':' :: afterColon =>
          match readValue fuel afterColon with
          | none => none
          | some (x, afterValue) =>
            match skipSpace afterValue with
            | ',' :: tail =>
              match readMembers fuel tail with
              | none => none
              | some (kvs, tail') => some ((String.mk k, x) :: kvs, tail')
            | '\x7d' :: tail => some ([(String.mk k, x)], tail)
            | _ => none
        | _ => none
    | _ => none
end

/-- The reference `JSON.stringify`. -/
def refStringify (v : Json) : String := String.mk (printValue v)

/-- The reference `JSON.parse`: one value, then only white space. -/
def refParse (s : String) : Option Json :=
  match readValue (s.data.length + 1) s.data with
  | none => none
  | some (v, rest) => if skipSpace rest = [] then some v else none

/-- A stand-in digest: the code of each character modulo 256. -/
def refDigest (s : String) : List Nat := s.data.map (fun c => c.toNat % 256)

/-- The reference platform. -/
def refPlatform : Platform := ⟨refStringify, refParse, refDigest⟩

/-! ## Predicates of the statements -/

/-- No usable bearer token: the header is missing, does not start with `Bearer `, or carries
a token for which the namespace holds no `token:` entry. -/
def Unauthorized (kv : KV) (authorization : Option String) : Prop :=
  authorization = none ∨
  (∃ a, authorization = some a ∧ "Bearer ".data.isPrefixOf a.data = false) ∨
  (∃ t, authorization = some ("Bearer " ++ t) ∧ kvGet kv ("token:" ++ t) = none)

/-- Token `t` resolves to user `u`: the namespace maps `token:t` to `u`, where a token and a
user name are non-empty texts (as `generateToken` and `handleLogin` produce them). -/
def TokenResolves (kv : KV) (t u : String) : Prop :=
  t ≠ "" ∧ u ≠ "" ∧ kvGet kv ("token:" ++ t) = some u

instance (kv : KV) (t u : String) : Decidable (TokenResolves kv t u) := by
  unfold TokenResolves; infer_instance

/-- A record is held under the key: the namespace has a non-empty text there. -/
def hasRecord (kv : KV) (key : String) : Bool :=
  (truthyText (kvGet kv key)).isSome

/-- The namespace holds under `user:username` a user record whose `passwordHash` is `h`: a
non-empty text that the platform parses to an object with that string property. -/
def UserRecordAt (P : Platform) (kv : KV) (username h : String) : Prop :=
  ∃ txt fields, kvGet kv ("user:" ++ username) = some txt ∧ txt ≠ "" ∧
    P.jsonParse txt = some (Json.obj fields) ∧ fields.lookup "passwordHash" = some (Json.str h)

/-- The user record `handleRegister` builds. -/
def userRecord (P : Platform) (now username password : String) : Json :=
  Json.obj [("username", Json.str username),
    ("passwordHash", Json.str (simpleHash P password)), ("createdAt", Json.str now)]

/-- The `typeof` of the rejected payloads of `handleSaveData`, with `null`: not an object. -/
def Json.isPrimitive : Json → Bool
  | .null => true
  | .bool _ => true
  | .num _ => true
  | .str _ => true
  | _ => false

/-- A JSON array. -/
def Json.isArray : Json → Bool
  | .arr _ => true
  | _ => false

/-- No month-key of the dataset maps to an empty day mapping. -/
def NoEmptyMonth (d : Members) : Prop :=
  ∀ p ∈ d, p.2 ≠ Json.obj []

instance (d : Members) : Decidable (NoEmptyMonth d) := by
  unfold NoEmptyMonth; infer_instance

/-! ## Inputs of the concrete runs -/

/-- The tracker of the failing run of C2: one local month, a token, no sync in flight. -/
def syncTracker : Tracker :=
  { overtimeData := Json.obj [("2024-1", Json.obj [("2", Json.str "full")])],
    userToken := some "tok", isSyncing := false, lastSyncTime := none, storedData := none,
    syncStatus := "" }

/-- The namespace of the failing run of C2: the token of alice and her stored dataset. -/
def syncStore : KV :=
  [("token:tok", ⟨"alice", some tokenTtl⟩),
    ("data:alice", ⟨refStringify (Json.obj [("2024-2", Json.obj [("5", Json.str "half")])]),
      none⟩)]

/-! ## Lemmas on property lists -/

theorem hyphen_of_isMonthKey {k : String} (h : isMonthKey k = true) : '-' ∈ k.data := by
  unfold isMonthKey at h
  have hsplit := List.takeWhile_append_dropWhile Char.isDigit k.data
  rw [List.span_eq_take_drop] at h
  revert h
  cases hd : List.dropWhile Char.isDigit k.data with
  | nil => simp
  | cons c cs =>
    intro h
    have hc : c = '-' := by
      by_contra hne
      simp at h
      split at h
      · next heq => simp at heq; exact hne heq.2.1
      · simp at h
    rw [hd, hc] at hsplit
    rw [← hsplit]
    simp

theorem arrayIndex_none_of_hyphen {k : String} (h : '-' ∈ k.data) : arrayIndex? k = none := by
  unfold arrayIndex?
  have : k.data.all Char.isDigit = false := by
    rw [List.all_eq_false]
    exact ⟨'-', h, by decide⟩
  simp [this]

theorem not_proto_of_hyphen {k : String} (h : '-' ∈ k.data) :
    objectPrototypeKeys.contains k = false := by
  rw [Bool.eq_false_iff]
  intro hc
  simp only [List.contains_eq_any_beq, List.any_eq_true, beq_iff_eq] at hc
  obtain ⟨p, hp, rfl⟩ := hc
  have : ∀ p ∈ objectPrototypeKeys, '-' ∉ p.data := by decide
  exact this _ hp h

@[simp] theorem keys_nil : keys ([] : Members) = [] := rfl

@[simp] theorem keys_cons (p : String × Json) (m : Members) : keys (p :: m) = p.1 :: keys m := rfl

@[simp] theorem keys_append (a b : Members) : keys (a ++ b) = keys a ++ keys b := by
  simp [keys]

theorem mem_keys_of_mem {m : Members} {p : String × Json} (h : p ∈ m) : p.1 ∈ keys m :=
  List.mem_map_of_mem Prod.fst h

theorem lookup_eq_none_iff_not_mem_keys (m : Members) (k : String) :
    m.lookup k = none ↔ k ∉ keys m := by
  induction m with
  | nil => simp [List.lookup]
  | cons p m ih =>
    obtain ⟨a, b⟩ := p
    by_cases h : k = a
    · subst h; simp [List.lookup]
    · have h' : (k == a) = false := by simpa using h
      simp [List.lookup, h', ih, h]

theorem lookup_of_mem_nodup {m : Members} (hnd : (keys m).Nodup) {p : String × Json}
    (hp : p ∈ m) : m.lookup p.1 = some p.2 := by
  induction m with
  | nil => cases hp
  | cons q m ih =>
    obtain ⟨a, b⟩ := q
    simp only [keys_cons, List.nodup_cons] at hnd
    rcases List.mem_cons.1 hp with rfl | hp'
    · simp [List.lookup]
    · have hne : p.1 ≠ a := fun e => hnd.1 (e ▸ mem_keys_of_mem hp')
      have h' : (p.1 == a) = false := by simpa using hne
      simp [List.lookup, h', ih hnd.2 hp']

theorem lookup_append_left {a b : Members} {k : String} (h : k ∈ keys a) :
    (a ++ b).lookup k = a.lookup k := by
  induction a with
  | nil => cases h
  | cons p a ih =>
    obtain ⟨x, y⟩ := p
    by_cases hk : k = x
    · subst hk; simp [List.lookup]
    · have h' : (k == x) = false := by simpa using hk
      have hmem : k ∈ keys a := by
        simp only [keys_cons, List.mem_cons] at h
        exact h.resolve_left hk
      simp [List.lookup, h', ih hmem]

theorem lookup_append_right {a b : Members} {k : String} (h : k ∉ keys a) :
    (a ++ b).lookup k = b.lookup k := by
  induction a with
  | nil => rfl
  | cons p a ih =>
    obtain ⟨x, y⟩ := p
    simp only [keys_cons, List.mem_cons, not_or] at h
    have h' : (k == x) = false := by simpa using h.1
    simp [List.lookup, h', ih h.2]

theorem mem_of_lookup {m : Members} {k : String} {v : Json} (h : m.lookup k = some v) :
    (k, v) ∈ m := by
  induction m with
  | nil => simp [List.lookup] at h
  | cons p m ih =>
    obtain ⟨a, b⟩ := p
    by_cases hk : k = a
    · subst hk
      simp [List.lookup] at h
      simp [h]
    · have h' : (k == a) = false := by simpa using hk
      simp only [List.lookup, h'] at h
      exact List.mem_cons_of_mem _ (ih h)

theorem setProp_new {m : Members} {k : String} (v : Json) (hk : k ∉ keys m)
    (hi : arrayIndex? k = none) : setProp m k v = m ++ [(k, v)] := by
  unfold setProp
  rw [if_neg (by simpa using hk), hi]

theorem foldl_setProp_fresh (r acc : Members) (hnd : (keys r).Nodup)
    (hi : ∀ p ∈ r, arrayIndex? p.1 = none) (hfresh : ∀ k ∈ keys r, k ∉ keys acc) :
    r.foldl (fun acc p => setProp acc p.1 p.2) acc = acc ++ r := by
  induction r generalizing acc with
  | nil => simp
  | cons p r ih =>
    simp only [keys_cons, List.nodup_cons] at hnd
    have hp : p.1 ∉ keys acc := hfresh p.1 (by simp)
    rw [List.foldl_cons, setProp_new p.2 hp (hi p (by simp))]
    rw [ih _ hnd.2 (fun q hq => hi q (List.mem_cons_of_mem _ hq))]
    · simp
    · intro k hk
      simp only [keys_append, keys_cons, keys_nil, List.mem_append, List.mem_singleton, not_or]
      refine ⟨hfresh k (by simp [hk]), ?_⟩
      rintro rfl
      exact hnd.1 hk

theorem spread_obj {r : Members} (hnd : (keys r).Nodup)
    (hi : ∀ p ∈ r, arrayIndex? p.1 = none) : spread (Json.obj r) = r := by
  unfold spread ownEnumerable
  rw [foldl_setProp_fresh r [] hnd hi (by simp)]
  simp

theorem propTruthy_eq_contains {m : Members} {k : String}
    (hv : ∀ p ∈ m, p.2.truthy = true) (hp : objectPrototypeKeys.contains k = false) :
    propTruthy m k = (keys m).contains k := by
  unfold propTruthy
  cases hlk : m.lookup k with
  | none =>
    have := (lookup_eq_none_iff_not_mem_keys m k).1 hlk
    show objectPrototypeKeys.contains k = (keys m).contains k
    rw [hp]
    symm
    simpa using this
  | some v =>
    have hmem : (k, v) ∈ m := mem_of_lookup hlk
    have hk : k ∈ keys m := mem_keys_of_mem hmem
    show v.truthy = (keys m).contains k
    rw [hv _ hmem]
    symm
    simpa using hk

theorem foldl_mergeStep (l acc : Members) (hnd : (keys l).Nodup)
    (hl : ∀ p ∈ l, arrayIndex? p.1 = none ∧ objectPrototypeKeys.contains p.1 = false ∧
      p.2.truthy = true)
    (hacc : ∀ p ∈ acc, p.2.truthy = true) :
    l.foldl mergeStep acc = acc ++ l.filter (fun p => !(keys acc).contains p.1) := by
  induction l generalizing acc with
  | nil => simp
  | cons p l ih =>
    simp only [keys_cons, List.nodup_cons] at hnd
    obtain ⟨hpi, hpp, hpt⟩ := hl p (by simp)
    have hl' : ∀ q ∈ l, arrayIndex? q.1 = none ∧ objectPrototypeKeys.contains q.1 = false ∧
        q.2.truthy = true := fun q hq => hl q (List.mem_cons_of_mem _ hq)
    rw [List.foldl_cons]
    by_cases hk : p.1 ∈ keys acc
    · have hc : (keys acc).contains p.1 = true := by simpa using hk
      have hstep : mergeStep acc p = acc := by
        unfold mergeStep
        rw [propTruthy_eq_contains hacc hpp, hc]
        simp
      rw [hstep, ih acc hnd.2 hl' hacc, List.filter_cons]
      simp [hk]
    · have hc : (keys acc).contains p.1 = false := by simpa using hk
      have hstep : mergeStep acc p = acc ++ [p] := by
        unfold mergeStep
        rw [propTruthy_eq_contains hacc hpp, hc, setProp_new p.2 hk hpi]
        simp
      rw [hstep, ih _ hnd.2 hl', List.filter_cons]
      · simp only [hc, Bool.not_false, if_true, List.append_assoc, List.singleton_append]
        congr 2
        apply List.filter_congr
        intro q hq
        have hne : q.1 ≠ p.1 := fun e => hnd.1 (e ▸ mem_keys_of_mem hq)
        simp [hne]
      · intro q hq
        rcases List.mem_append.1 hq with h | h
        · exact hacc q h
        · simp only [List.mem_singleton] at h
          subst h; exact hpt

theorem truthy_of_isMapping {v : Json} (h : v.isMapping = true) : v.truthy = true := by
  cases v <;> simp_all [Json.isMapping, Json.truthy]

theorem lookup_filter_keys (f : String → Bool) (l : Members) {k : String} (hk : f k = true) :
    (l.filter (fun p => f p.1)).lookup k = l.lookup k := by
  induction l with
  | nil => rfl
  | cons p l ih =>
    obtain ⟨a, b⟩ := p
    by_cases h : k = a
    · subst h
      simp [List.filter_cons, hk, List.lookup]
    · have h' : (k == a) = false := by simpa using h
      by_cases hfa : f a = true
      · simp [List.filter_cons, hfa, List.lookup, h', ih]
      · simp [List.filter_cons, hfa, List.lookup, h', ih]

theorem mem_keys_filter (f : String → Bool) (l : Members) (k : String) :
    k ∈ keys (l.filter (fun p => f p.1)) ↔ k ∈ keys l ∧ f k = true := by
  simp only [keys, List.mem_map, List.mem_filter]
  constructor
  · rintro ⟨p, ⟨hp, hf⟩, rfl⟩
    exact ⟨⟨p, hp, rfl⟩, hf⟩
  · rintro ⟨⟨p, hp, rfl⟩, hf⟩
    exact ⟨p, ⟨hp, hf⟩, rfl⟩

theorem nodup_keys_filter (f : Prod String Json → Bool) {l : Members} (h : (keys l).Nodup) :
    (keys (l.filter f)).Nodup :=
  List.Nodup.sublist (List.Sublist.map Prod.fst (List.filter_sublist l)) h

/-- On datasets the merge is the remote property list followed by the local months the
remote lacks. -/
theorem mergeData_of_datasets {l r : Members} (hl : IsDataset l) (hr : IsDataset r) :
    mergeData (Json.obj l) (Json.obj r) =
      some (Json.obj (r ++ l.filter (fun p => !(keys r).contains p.1))) := by
  have hplain : ∀ m : Members, IsDataset m → ∀ p ∈ m, arrayIndex? p.1 = none ∧
      objectPrototypeKeys.contains p.1 = false ∧ p.2.truthy = true := by
    intro m hm p hp
    have hy := hyphen_of_isMonthKey (hm.2 p hp).1
    exact ⟨arrayIndex_none_of_hyphen hy, not_proto_of_hyphen hy,
      truthy_of_isMapping (hm.2 p hp).2⟩
  unfold mergeData
  simp only [objectEntries, ownEnumerable]
  rw [spread_obj hr.1 (fun p hp => (hplain r hr p hp).1),
    foldl_mergeStep l r hl.1 (hplain l hl) (fun p hp => (hplain r hr p hp).2.2)]

/-! ## Lemmas on the namespace and on headers -/

theorem lookup_map_other {β : Type} (kv : List (String × β)) {k k' : String} (e : β)
    (h : k' ≠ k) :
    (kv.map (fun p => if p.1 = k then (k, e) else p)).lookup k' = kv.lookup k' := by
  induction kv with
  | nil => rfl
  | cons p kv ih =>
    obtain ⟨a, b⟩ := p
    rw [List.map_cons]
    by_cases hk : a = k
    · rw [if_pos hk, List.lookup_cons, List.lookup_cons, ih]
      have h1 : (k' == k) = false := by simpa using h
      have h2 : (k' == a) = false := by simpa [hk] using h
      rw [h1, h2]
    · rw [if_neg hk, List.lookup_cons, List.lookup_cons, ih]

theorem lookup_map_same {β : Type} (kv : List (String × β)) (k : String) (e : β) :
    (kv.map (fun p => if p.1 = k then (k, e) else p)).lookup k =
      (kv.lookup k).map (fun _ => e) := by
  induction kv with
  | nil => rfl
  | cons p kv ih =>
    obtain ⟨a, b⟩ := p
    rw [List.map_cons]
    by_cases hk : a = k
    · rw [if_pos hk, List.lookup_cons, List.lookup_cons]
      have h1 : (k == k) = true := by simp
      have h2 : (k == a) = true := by simp [hk]
      rw [h1, h2]
      rfl
    · rw [if_neg hk, List.lookup_cons, List.lookup_cons, ih]
      have h2 : (k == a) = false := by simpa using fun e => hk e.symm
      rw [h2]

theorem contains_fst_eq_lookup_isSome {β : Type} (kv : List (String × β)) (k : String) :
    (kv.map Prod.fst).contains k = (kv.lookup k).isSome := by
  induction kv with
  | nil => rfl
  | cons p kv ih =>
    obtain ⟨a, b⟩ := p
    rw [List.map_cons, List.contains_cons, List.lookup_cons, ih]
    cases h : (k == a) <;> simp

theorem lookup_kvPut_same (kv : KV) (k v : String) (ttl : Option Nat) :
    (kvPut kv k v ttl).lookup k = some ⟨v, ttl⟩ := by
  unfold kvPut
  rw [contains_fst_eq_lookup_isSome]
  cases h : kv.lookup k with
  | none =>
    rw [if_neg (by simp), List.lookup_append, h]
    simp
  | some e =>
    rw [if_pos (by simp), lookup_map_same, h]
    rfl

theorem lookup_kvPut_other (kv : KV) {k k' : String} (v : String) (ttl : Option Nat)
    (h : k' ≠ k) : (kvPut kv k v ttl).lookup k' = kv.lookup k' := by
  unfold kvPut
  split
  · exact lookup_map_other kv _ h
  · rw [List.lookup_append]
    have hk' : (k' == k) = false := by simpa using h
    simp [List.lookup, hk']

theorem kvGet_kvPut_same (kv : KV) (k v : String) (ttl : Option Nat) :
    kvGet (kvPut kv k v ttl) k = some v := by
  simp [kvGet, lookup_kvPut_same]

theorem kvGet_kvPut_other (kv : KV) {k k' : String} (v : String) (ttl : Option Nat)
    (h : k' ≠ k) : kvGet (kvPut kv k v ttl) k' = kvGet kv k' := by
  simp [kvGet, lookup_kvPut_other kv v ttl h]

theorem truthyText_some {s : String} (h : s ≠ "") : truthyText (some s) = some s := by
  simp [truthyText, h]

theorem append_ne_empty_of_right {a b : String} (h : b ≠ "") : a ++ b ≠ "" := by
  intro e
  apply h
  have := congrArg String.data e
  rw [String.data_append] at this
  have hb : b.data = [] := (List.append_eq_nil.1 this).2
  exact String.ext hb

theorem getTokenFromRequest_bearer (t : String) :
    getTokenFromRequest (some ("Bearer " ++ t)) = some t := by
  have hne : "Bearer " ++ t ≠ "" := by
    intro e
    have := congrArg String.data e
    rw [String.data_append] at this
    simp at this
  unfold getTokenFromRequest
  rw [truthyText_some hne]
  simp only [String.data_append]
  have hp : "Bearer ".data.isPrefixOf ("Bearer ".data ++ t.data) = true := by
    rw [List.isPrefixOf_iff_prefix]
    exact List.prefix_append _ _
  rw [if_pos hp]
  have hd : ("Bearer ".data ++ t.data).drop 7 = t.data := by
    exact List.drop_left' (by decide)
  rw [hd]

theorem getTokenFromRequest_of_unauthorized {kv : KV} {authorization : Option String}
    (h : Unauthorized kv authorization) :
    truthyText (getTokenFromRequest authorization) = none ∨
      ∃ t, truthyText (getTokenFromRequest authorization) = some t ∧
        truthyText (kvGet kv ("token:" ++ t)) = none := by
  rcases h with h | ⟨a, h, hp⟩ | ⟨t, h, hk⟩
  · subst h; left; rfl
  · subst h
    left
    unfold getTokenFromRequest
    cases ht : truthyText (some a) with
    | none => rfl
    | some b =>
      have hb : b = a := by
        unfold truthyText at ht
        split at ht <;> simp_all
      subst hb
      simp [hp, truthyText]
  · subst h
    rw [getTokenFromRequest_bearer]
    by_cases ht : t = ""
    · left; simp [truthyText, ht]
    · right
      exact ⟨t, truthyText_some ht, by rw [hk]; rfl⟩

theorem handleGetData_resolved (P : Platform) {kv : KV} {t u : String}
    (h : TokenResolves kv t u) :
    handleGetData P kv (some ("Bearer " ++ t)) =
      match truthyText (kvGet kv ("data:" ++ u)) with
      | none => (jsonResponse P (Json.obj [("data", Json.obj [])]) 200, kv)
      | some userData =>
        match P.jsonParse userData with
        | none => (jsonResponse P (errorBody "获取数据失败") 500, kv)
        | some data => (jsonResponse P (Json.obj [("data", data)]) 200, kv) := by
  obtain ⟨ht, hu, hk⟩ := h
  unfold handleGetData
  rw [getTokenFromRequest_bearer, truthyText_some ht]
  simp only [hk, truthyText_some hu]

theorem handleSaveData_resolved (P : Platform) {kv : KV} {t u : String}
    (h : TokenResolves kv t u) (newData : Json) :
    handleSaveData P kv (some ("Bearer " ++ t)) (some newData) =
      if !newData.isNonNullObject then (jsonResponse P (errorBody "数据格式无效") 400, kv)
      else (jsonResponse P (Json.obj [("message", Json.str "数据保存成功")]) 200,
        kvPut kv ("data:" ++ u) (P.jsonStringify newData) none) := by
  obtain ⟨ht, hu, hk⟩ := h
  unfold handleSaveData
  rw [getTokenFromRequest_bearer, truthyText_some ht]
  simp only [hk, truthyText_some hu]

theorem tokenKey_ne_dataKey (t u : String) : "token:" ++ t ≠ "data:" ++ u := by
  intro e
  have := congrArg String.data e
  rw [String.data_append, String.data_append] at this
  simp at this

theorem tokenResolves_kvPut_data {kv : KV} {t u : String} (h : TokenResolves kv t u)
    (v w : String) (ttl : Option Nat) : TokenResolves (kvPut kv ("data:" ++ v) w ttl) t u :=
  ⟨h.1, h.2.1, by rw [kvGet_kvPut_other kv w ttl (tokenKey_ne_dataKey t v)]; exact h.2.2⟩

theorem userKey_ne_tokenKey (u t : String) : "user:" ++ u ≠ "token:" ++ t := by
  intro e
  have := congrArg String.data e
  rw [String.data_append, String.data_append] at this
  simp at this

theorem jsLength_empty : jsLength "" = 0 := rfl

theorem ne_empty_of_jsLength_pos {s : String} (h : 0 < jsLength s) : s ≠ "" := by
  rintro rfl
  simp [jsLength_empty] at h

theorem handleLogin_of_record (P : Platform) (timestamp : Nat) (random : String) {kv : KV}
    {username password h : String} (hu : username ≠ "") (hp : password ≠ "")
    (hrec : UserRecordAt P kv username h) :
    handleLogin P timestamp random kv username password =
      if simpleHash P password ≠ h then (jsonResponse P (errorBody "密码错误") 401, kv)
      else
        (jsonResponse P (Json.obj [("token", Json.str (generateToken timestamp random username)),
            ("username", Json.str username), ("message", Json.str "登录成功")]) 200,
          kvPut kv ("token:" ++ generateToken timestamp random username) username
            (some tokenTtl)) := by
  obtain ⟨txt, fields, hget, hne, hparse, hfield⟩ := hrec
  unfold handleLogin
  rw [if_neg (by simp [hu, hp]), hget, truthyText_some hne]
  simp only [hparse, Option.some_bind, readPasswordHash, hfield]
  by_cases hh : simpleHash P password = h
  · simp [hh]
  · have : ¬ h = simpleHash P password := fun e => hh e.symm
    simp [hh, this]

theorem userRecordAt_after_register (P : Platform) (now : String) (kv : KV)
    {username password : String} (hrt : P.RoundTrips (userRecord P now username password)) :
    UserRecordAt P (kvPut kv ("user:" ++ username)
      (P.jsonStringify (userRecord P now username password)) none) username
      (simpleHash P password) :=
  ⟨_, _, kvGet_kvPut_same _ _ _ _, hrt.1, hrt.2, by simp [List.lookup]⟩

theorem userRecordAt_kvPut_token {P : Platform} {kv : KV} {username h : String}
    (hrec : UserRecordAt P kv username h) (t v : String) (ttl : Option Nat) :
    UserRecordAt P (kvPut kv ("token:" ++ t) v ttl) username h := by
  obtain ⟨txt, fields, hget, hne, hparse, hfield⟩ := hrec
  exact ⟨txt, fields, by rw [kvGet_kvPut_other kv v ttl (userKey_ne_tokenKey username t)]; exact hget,
    hne, hparse, hfield⟩

theorem handleRegister_fresh (P : Platform) (now : String) (kv : KV) {username password : String}
    (hu3 : 3 ≤ jsLength username) (hu20 : jsLength username ≤ 20)
    (hp : 6 ≤ jsLength password) (hfresh : hasRecord kv ("user:" ++ username) = false) :
    handleRegister P now kv username password =
      (jsonResponse P (Json.obj [("message", Json.str "注册成功")]) 200,
        kvPut kv ("user:" ++ username) (P.jsonStringify (userRecord P now username password))
          none) := by
  have hu : username ≠ "" := ne_empty_of_jsLength_pos (by omega)
  have hpw : password ≠ "" := ne_empty_of_jsLength_pos (by omega)
  have hnone : truthyText (kvGet kv ("user:" ++ username)) = none := by
    unfold hasRecord at hfresh
    cases h : truthyText (kvGet kv ("user:" ++ username)) with
    | none => rfl
    | some x => rw [h] at hfresh; simp at hfresh
  unfold handleRegister
  rw [if_neg (by simp [hu, hpw]), if_neg (by omega), if_neg (by omega), hnone]
  rfl

theorem handleRegister_taken (P : Platform) (now : String) {kv : KV} {username password h : String}
    (hu3 : 3 ≤ jsLength username) (hu20 : jsLength username ≤ 20)
    (hp : 6 ≤ jsLength password) (hrec : UserRecordAt P kv username h) :
    handleRegister P now kv username password =
      (jsonResponse P (errorBody "用户名已存在") 409, kv) := by
  have hu : username ≠ "" := ne_empty_of_jsLength_pos (by omega)
  have hpw : password ≠ "" := ne_empty_of_jsLength_pos (by omega)
  obtain ⟨txt, fields, hget, hne, -, -⟩ := hrec
  unfold handleRegister
  rw [if_neg (by simp [hu, hpw]), if_neg (by omega), if_neg (by omega), hget,
    truthyText_some hne]

/-! ## Lemmas on property assignment and deletion -/

theorem mem_insertIndexed (i : Nat) (k : String) (v : Json) (m : Members)
    (p : String × Json) : p ∈ insertIndexed i k v m ↔ p = (k, v) ∨ p ∈ m := by
  induction m with
  | nil => simp [insertIndexed]
  | cons q m ih =>
    obtain ⟨a, b⟩ := q
    unfold insertIndexed
    split
    · split
      · simp only [List.mem_cons, ih]
        tauto
      · simp only [List.mem_cons]
    · simp only [List.mem_cons]

theorem lookup_insertIndexed_other (i : Nat) {k k' : String} (v : Json) (m : Members)
    (h : k' ≠ k) : (insertIndexed i k v m).lookup k' = m.lookup k' := by
  have hk : (k' == k) = false := by simpa using h
  induction m with
  | nil => simp [insertIndexed, List.lookup, hk]
  | cons q m ih =>
    obtain ⟨a, b⟩ := q
    unfold insertIndexed
    split
    · split
      · rw [List.lookup_cons, List.lookup_cons, ih]
      · rw [List.lookup_cons, hk]
    · rw [List.lookup_cons, hk]

theorem lookup_insertIndexed_same (i : Nat) {k : String} (v : Json) (m : Members)
    (h : k ∉ keys m) : (insertIndexed i k v m).lookup k = some v := by
  induction m with
  | nil => simp [insertIndexed]
  | cons q m ih =>
    obtain ⟨a, b⟩ := q
    simp only [keys_cons, List.mem_cons, not_or] at h
    have hk : (k == a) = false := by simpa using h.1
    unfold insertIndexed
    split
    · split
      · rw [List.lookup_cons, hk]
        exact ih h.2
      · simp
    · simp

theorem contains_keys_iff (m : Members) (k : String) :
    (keys m).contains k = true ↔ k ∈ keys m := by
  simp

theorem lookup_setProp_same (m : Members) (k : String) (v : Json) :
    (setProp m k v).lookup k = some v := by
  unfold setProp
  by_cases hc : (keys m).contains k = true
  · rw [if_pos hc, lookup_map_same]
    have hmem : k ∈ keys m := (contains_keys_iff m k).1 hc
    cases hl : m.lookup k with
    | none => exact absurd hmem ((lookup_eq_none_iff_not_mem_keys m k).1 hl)
    | some w => rfl
  · rw [if_neg hc]
    have hmem : k ∉ keys m := fun h => hc ((contains_keys_iff m k).2 h)
    split
    · exact lookup_insertIndexed_same _ v m hmem
    · rw [lookup_append_right hmem]
      simp

theorem lookup_setProp_other (m : Members) {k k' : String} (v : Json) (h : k' ≠ k) :
    (setProp m k v).lookup k' = m.lookup k' := by
  unfold setProp
  split
  · exact lookup_map_other m v h
  · split
    · exact lookup_insertIndexed_other _ v m h
    · rw [List.lookup_append]
      have hk : (k' == k) = false := by simpa using h
      simp [List.lookup, hk]

theorem mem_setProp {m : Members} {k : String} {v : Json} {p : String × Json}
    (hp : p ∈ setProp m k v) : p = (k, v) ∨ (p ∈ m ∧ p.1 ≠ k) := by
  unfold setProp at hp
  by_cases hc : (keys m).contains k = true
  · rw [if_pos hc] at hp
    obtain ⟨q, hq, rfl⟩ := List.mem_map.1 hp
    by_cases hqk : q.1 = k
    · left; simp [hqk]
    · right; simp [hqk, hq]
  · rw [if_neg hc] at hp
    have hmem : k ∉ keys m := fun h => hc ((contains_keys_iff m k).2 h)
    have hor : p = (k, v) ∨ p ∈ m := by
      split at hp
      · exact (mem_insertIndexed _ k v m p).1 hp
      · rcases List.mem_append.1 hp with h | h
        · exact Or.inr h
        · exact Or.inl (by simpa using h)
    rcases hor with h | h
    · exact Or.inl h
    · exact Or.inr ⟨h, fun e => hmem (e ▸ mem_keys_of_mem h)⟩

theorem setProp_ne_nil (m : Members) (k : String) (v : Json) : setProp m k v ≠ [] := by
  intro h
  have := lookup_setProp_same m k v
  rw [h] at this
  simp at this

theorem mem_deleteProp {m : Members} {k : String} {p : String × Json} :
    p ∈ deleteProp m k ↔ p ∈ m ∧ p.1 ≠ k := by
  simp [deleteProp]

theorem lookup_deleteProp_same (m : Members) (k : String) : (deleteProp m k).lookup k = none := by
  rw [lookup_eq_none_iff_not_mem_keys]
  intro h
  obtain ⟨p, hp, hk⟩ := List.mem_map.1 h
  exact (mem_deleteProp.1 hp).2 hk

theorem lookup_deleteProp_other (m : Members) {k k' : String} (h : k' ≠ k) :
    (deleteProp m k).lookup k' = m.lookup k' := by
  have := lookup_filter_keys (fun x => x != k) m (k := k') (by simpa using h)
  exact this

theorem deleteProp_eq_nil_iff (m : Members) (k : String) :
    deleteProp m k = [] ↔ ∀ x ∈ keys m, x = k := by
  unfold deleteProp
  rw [List.filter_eq_nil_iff]
  constructor
  · intro h x hx
    obtain ⟨p, hp, rfl⟩ := List.mem_map.1 hx
    simpa using h p hp
  · intro h p hp
    simpa using h p.1 (mem_keys_of_mem hp)

theorem keys_length_eq_zero_iff (m : Members) : (keys m).length = 0 ↔ m = [] := by
  cases m <;> simp [keys]

theorem hyphen_mem_monthKey (year month : Nat) : '-' ∈ (monthKey year month).data := by
  unfold monthKey
  simp [String.data_append]

/-- The first step of `saveDayStatus` on a dataset: afterwards the month-key holds the days
recorded for it, and nothing else has changed. -/
theorem created_month_entry {d : Members} {key : String} (hd : ∀ p ∈ d, p.2.isMapping = true)
    (hk : '-' ∈ key.data) :
    (if !propTruthy d key then setProp d key (Json.obj []) else d).lookup key =
        some (Json.obj (dayMapping d key)) ∧
      (∀ k, k ≠ key →
        (if !propTruthy d key then setProp d key (Json.obj []) else d).lookup k = d.lookup k) ∧
      (∀ p ∈ (if !propTruthy d key then setProp d key (Json.obj []) else d),
        p = (key, Json.obj []) ∨ p ∈ d) := by
  rw [propTruthy_eq_contains (fun p hp => truthy_of_isMapping (hd p hp)) (not_proto_of_hyphen hk)]
  by_cases hc : (keys d).contains key = true
  · simp only [hc, Bool.not_true, Bool.false_eq_true, if_false]
    have hmem : key ∈ keys d := (contains_keys_iff d key).1 hc
    refine ⟨?_, fun _ _ => trivial, fun p hp => Or.inr hp⟩
    cases hl : d.lookup key with
    | none => exact absurd hmem ((lookup_eq_none_iff_not_mem_keys d key).1 hl)
    | some w =>
      have hw := hd _ (mem_of_lookup hl)
      cases w <;> simp_all [Json.isMapping, dayMapping]
  · have hc' : (keys d).contains key = false := by simpa using hc
    simp only [hc', Bool.not_false, if_true]
    have hmem : key ∉ keys d := fun h => hc ((contains_keys_iff d key).2 h)
    have hnone := (lookup_eq_none_iff_not_mem_keys d key).2 hmem
    refine ⟨?_, fun k hkk => lookup_setProp_other d _ hkk, ?_⟩
    · rw [lookup_setProp_same]
      simp [dayMapping, hnone]
    · intro p hp
      rcases mem_setProp hp with h | h
      · exact Or.inl h
      · exact Or.inr h.1

/-- What `saveDayStatus` does to a dataset, in terms of lookups. -/
theorem saveDayStatusData_spec {d : Members} {key : String}
    (hd : ∀ p ∈ d, p.2.isMapping = true) (hk : '-' ∈ key.data) (day : Nat) (status : String) :
    ∃ d', saveDayStatusData d key day status = some d' ∧
      (∀ k, k ≠ key → d'.lookup k = d.lookup k) ∧
      (∀ p ∈ d', p ∈ d ∨ p.2 ≠ Json.obj []) ∧
      (status ≠ "normal" → d'.lookup key =
        some (Json.obj (setProp (dayMapping d key) (toString day) (Json.str status)))) ∧
      (status = "normal" → deleteProp (dayMapping d key) (toString day) = [] →
        d'.lookup key = none) ∧
      (status = "normal" → deleteProp (dayMapping d key) (toString day) ≠ [] →
        d'.lookup key = some (Json.obj (deleteProp (dayMapping d key) (toString day)))) := by
  obtain ⟨hlk, hother, hmem⟩ := created_month_entry hd hk
  have hkeep : ∀ p ∈ (if !propTruthy d key then setProp d key (Json.obj []) else d),
      p.1 ≠ key → p ∈ d := by
    intro p hp hne
    rcases hmem p hp with h | h
    · exact absurd (by rw [h]) hne
    · exact h
  unfold saveDayStatusData
  simp only [hlk]
  by_cases hs : status = "normal"
  · simp only [hs, if_true, keys_length_eq_zero_iff]
    by_cases he : deleteProp (dayMapping d key) (toString day) = []
    · rw [if_pos he]
      refine ⟨_, rfl, ?_, ?_, ?_, ?_, ?_⟩
      · intro k hkk
        rw [lookup_deleteProp_other _ hkk, hother k hkk]
      · intro p hp
        have := mem_deleteProp.1 hp
        exact Or.inl (hkeep p this.1 this.2)
      · intro h; exact absurd rfl h
      · intro _ _; exact lookup_deleteProp_same _ _
      · intro _ h; exact absurd he h
    · rw [if_neg he]
      refine ⟨_, rfl, ?_, ?_, ?_, ?_, ?_⟩
      · intro k hkk
        rw [lookup_setProp_other _ _ hkk, hother k hkk]
      · intro p hp
        rcases mem_setProp hp with h | h
        · right
          rw [h]
          intro e
          exact he (by injection e)
        · exact Or.inl (hkeep p h.1 h.2)
      · intro h; exact absurd rfl h
      · intro _ h; exact absurd h he
      · intro _ _; exact lookup_setProp_same _ _ _
  · simp only [hs, if_false]
    refine ⟨_, rfl, ?_, ?_, ?_, ?_, ?_⟩
    · intro k hkk
      rw [lookup_setProp_other _ _ hkk, hother k hkk]
    · intro p hp
      rcases mem_setProp hp with h | h
      · right
        rw [h]
        intro e
        exact setProp_ne_nil _ _ _ (by injection e)
      · exact Or.inl (hkeep p h.1 h.2)
    · intro _; exact lookup_setProp_same _ _ _
    · intro h; exact h.elim
    · intro h; exact h.elim

theorem saveDayStatus_of_data (P : Platform) (year month : Nat) {tracker : Tracker} (kv : KV)
    (day : Nat) (status : String) {d d' : Members} (ht : tracker.overtimeData = Json.obj d)
    (hd : saveDayStatusData d (monthKey year month) day status = some d') :
    ∃ out, saveDayStatus P year month tracker kv day status = some out ∧
      out.1.overtimeData = Json.obj d' := by
  unfold saveDayStatus
  rw [ht]
  simp only [hd]
  cases truthyText tracker.userToken with
  | none => exact ⟨_, rfl, rfl⟩
  | some t => exact ⟨_, rfl, rfl⟩

theorem userKey_ne_dataKey (v u : String) : "user:" ++ v ≠ "data:" ++ u := by
  intro e
  have := congrArg String.data e
  rw [String.data_append, String.data_append] at this
  simp at this

theorem dataKey_injective {v u : String} (h : "data:" ++ v = "data:" ++ u) : v = u := by
  have := congrArg String.data h
  rw [String.data_append, String.data_append] at this
  exact String.ext (List.append_cancel_left this)

/-- With a resolving token, `handleSaveData` returns the namespace as it was or with one
`put` under the data key of the token's user. -/
theorem handleSaveData_store (P : Platform) {kv : KV} {t u : String}
    (h : TokenResolves kv t u) (body : Option Json) :
    (handleSaveData P kv (some ("Bearer " ++ t)) body).2 = kv ∨
      ∃ text, (handleSaveData P kv (some ("Bearer " ++ t)) body).2 =
        kvPut kv ("data:" ++ u) text none := by
  cases body with
  | none =>
    left
    obtain ⟨ht, hu, hk⟩ := h
    unfold handleSaveData
    rw [getTokenFromRequest_bearer, truthyText_some ht]
    simp only [hk, truthyText_some hu]
  | some newData =>
    rw [handleSaveData_resolved P h newData]
    by_cases hobj : newData.isNonNullObject = true
    · right
      exact ⟨P.jsonStringify newData, by simp [hobj]⟩
    · left
      simp [hobj]

theorem handleGetData_response_congr (P : Platform) {kv kv' : KV} {t v : String}
    (h : TokenResolves kv t v) (h' : TokenResolves kv' t v)
    (hdata : kvGet kv' ("data:" ++ v) = kvGet kv ("data:" ++ v)) :
    (handleGetData P kv' (some ("Bearer " ++ t))).1 =
      (handleGetData P kv (some ("Bearer " ++ t))).1 := by
  rw [handleGetData_resolved P h, handleGetData_resolved P h', hdata]
  cases truthyText (kvGet kv ("data:" ++ v)) with
  | none => rfl
  | some userData =>
    simp only []
    cases P.jsonParse userData <;> rfl

/-- A file whose text is not JSON ends in the failure alert and changes nothing. -/
theorem importData_invalid_json (P : Platform) (tracker : Tracker) (kv : KV) {text : String}
    (h : P.jsonParse text = none) :
    importData P tracker kv (some text) = ⟨tracker, kv, some "导入失败：文件格式不正确"⟩ := by
  unfold importData
  simp only [h]

/-! ## The claims -/

/-- C1: for datasets L and R, `mergeData(L, R)` is a mapping whose month-keys are exactly
those of R together with those of L absent from R; a month-key of R keeps the day mapping it
has in R, a month-key of L absent from R keeps the one it has in L (the properties are
those of R, in order, followed by the local-only ones of L); and the example of the
specification evaluates as stated. -/
theorem mergeData_keys_and_values (l r : Members) (hl : IsDataset l) (hr : IsDataset r) :
    (∃ m : Members, mergeData (Json.obj l) (Json.obj r) = some (Json.obj m) ∧
      m = r ++ l.filter (fun p => !(keys r).contains p.1) ∧
      (keys m).Nodup ∧
      (∀ k, k ∈ keys m ↔ k ∈ keys r ∨ (k ∈ keys l ∧ k ∉ keys r)) ∧
      (∀ k, k ∈ keys r → m.lookup k = r.lookup k) ∧
      (∀ k, k ∈ keys l → k ∉ keys r → m.lookup k = l.lookup k)) ∧
    mergeData (Json.obj [("2024-1", Json.obj [("2", Json.str "full")])])
        (Json.obj [("2024-2", Json.obj [("5", Json.str "half")])]) =
      some (Json.obj [("2024-2", Json.obj [("5", Json.str "half")]),
        ("2024-1", Json.obj [("2", Json.str "full")])]) := by
  refine ⟨⟨_, mergeData_of_datasets hl hr, rfl, ?_, ?_, ?_, ?_⟩, by decide⟩
  · rw [keys_append, List.nodup_append]
    refine ⟨hr.1, nodup_keys_filter _ hl.1, ?_⟩
    intro k hk hk'
    have := (mem_keys_filter (fun k => !(keys r).contains k) l k).1 hk'
    simp [hk] at this
  · intro k
    rw [keys_append, List.mem_append, mem_keys_filter (fun k => !(keys r).contains k) l k]
    simp
  · intro k hk
    exact lookup_append_left hk
  · intro k _ hk
    rw [lookup_append_right hk]
    exact lookup_filter_keys (fun k => !(keys r).contains k) l (by simpa using hk)

/-- Witness for C1: two one-month datasets sharing their month-key. -/
theorem mergeData_keys_and_values_witness :
    mergeData (Json.obj [("2024-3", Json.obj [("5", Json.str "full")])])
        (Json.obj [("2024-3", Json.obj [("6", Json.str "half")])]) =
      some (Json.obj [("2024-3", Json.obj [("6", Json.str "half")])]) := by
  obtain ⟨⟨m, hm, hlist, -⟩, -⟩ := mergeData_keys_and_values
    [("2024-3", Json.obj [("5", Json.str "full")])]
    [("2024-3", Json.obj [("6", Json.str "half")])] (by decide) (by decide)
  rw [hm, hlist]
  decide

/-- C2 fails on the code: with R stored under `data:alice` the sync succeeds, but the client
merges the response envelope `{ data: R }` instead of R, so `overtimeData` ends as `{"data": R, "2024-1": ...}`, which is
not `mergeData(L, R)`, and that value is what the server then stores under `data:alice`. -/
theorem syncData_merges_envelope :
    (kvGet syncStore "data:alice").bind refParse =
      some (Json.obj [("2024-2", Json.obj [("5", Json.str "half")])]) ∧
    (syncData refPlatform 1700000000000 syncTracker syncStore).1.syncStatus = "数据已同步" ∧
    (syncData refPlatform 1700000000000 syncTracker syncStore).1.overtimeData =
      Json.obj [("data", Json.obj [("2024-2", Json.obj [("5", Json.str "half")])]),
        ("2024-1", Json.obj [("2", Json.str "full")])] ∧
    mergeData syncTracker.overtimeData
        (Json.obj [("2024-2", Json.obj [("5", Json.str "half")])]) =
      some (Json.obj [("2024-2", Json.obj [("5", Json.str "half")]),
        ("2024-1", Json.obj [("2", Json.str "full")])]) ∧
    some (syncData refPlatform 1700000000000 syncTracker syncStore).1.overtimeData ≠
      mergeData syncTracker.overtimeData
        (Json.obj [("2024-2", Json.obj [("5", Json.str "half")])]) ∧
    (kvGet (syncData refPlatform 1700000000000 syncTracker syncStore).2 "data:alice").bind
        refParse =
      some (Json.obj [("data", Json.obj [("2024-2", Json.obj [("5", Json.str "half")])]),
        ("2024-1", Json.obj [("2", Json.str "full")])]) := by
  decide

/-- C3: the empty dataset is a left and a right identity of `mergeData` on datasets. -/
theorem mergeData_empty_identity (d : Members) (hd : IsDataset d) :
    mergeData (Json.obj d) (Json.obj []) = some (Json.obj d) ∧
    mergeData (Json.obj []) (Json.obj d) = some (Json.obj d) := by
  have hnil : IsDataset [] := by decide
  constructor
  · rw [mergeData_of_datasets hd hnil]
    simp [keys]
  · rw [mergeData_of_datasets hnil hd]
    simp

/-- Witness for C3: a two-month dataset. -/
theorem mergeData_empty_identity_witness :
    mergeData (Json.obj [("2024-3", Json.obj [("5", Json.str "full")]),
        ("2024-11", Json.obj [])]) (Json.obj []) =
      some (Json.obj [("2024-3", Json.obj [("5", Json.str "full")]), ("2024-11", Json.obj [])]) ∧
    mergeData (Json.obj []) (Json.obj [("2024-3", Json.obj [("5", Json.str "full")]),
        ("2024-11", Json.obj [])]) =
      some (Json.obj [("2024-3", Json.obj [("5", Json.str "full")]), ("2024-11", Json.obj [])]) :=
  mergeData_empty_identity _ (by decide)

/-- C4: with a token that resolves to a user and a JSON mapping D whose JSON text the
platform reads back as D, `handleSaveData` answers 200 and a following `handleGetData`
with the same token answers 200 with the body `{ data: D }`, whatever the namespace held
under the user's data key before; with the reference platform the dataset
`{"2024-3": {"5":"full","6":"half"}}` comes back unchanged. -/
theorem save_then_get_returns_payload (P : Platform) (kv : KV) (t u : String) (D : Json)
    (ht : TokenResolves kv t u) (hD : D.isMapping = true) (hP : P.RoundTrips D) :
    ((handleSaveData P kv (some ("Bearer " ++ t)) (some D)).1.status = 200 ∧
      handleGetData P (handleSaveData P kv (some ("Bearer " ++ t)) (some D)).2
          (some ("Bearer " ++ t)) =
        (jsonResponse P (Json.obj [("data", D)]) 200,
          (handleSaveData P kv (some ("Bearer " ++ t)) (some D)).2)) ∧
    (refPlatform.jsonParse (handleGetData refPlatform
        (handleSaveData refPlatform [("token:tok", ⟨"alice", some tokenTtl⟩)]
          (some "Bearer tok")
          (some (Json.obj [("2024-3", Json.obj [("5", Json.str "full"),
            ("6", Json.str "half")])]))).2
        (some "Bearer tok")).1.body =
      some (Json.obj [("data", Json.obj [("2024-3", Json.obj [("5", Json.str "full"),
        ("6", Json.str "half")])])])) := by
  refine ⟨?_, by decide⟩
  have hobj : D.isNonNullObject = true := by
    cases D <;> simp_all [Json.isMapping, Json.isNonNullObject]
  rw [handleSaveData_resolved P ht D]
  simp only [hobj, Bool.not_true, Bool.false_eq_true, if_false]
  refine ⟨rfl, ?_⟩
  rw [handleGetData_resolved P (tokenResolves_kvPut_data ht u _ none)]
  simp only [kvGet_kvPut_same, truthyText_some hP.1, hP.2]

/-- Witness for C4: an empty dataset saved over a stored one, on the reference platform. -/
theorem save_then_get_returns_payload_witness :
    (handleSaveData refPlatform
        [("token:tok", ⟨"alice", some tokenTtl⟩), ("data:alice", ⟨"[1,2]", none⟩)]
        (some ("Bearer " ++ "tok")) (some (Json.obj []))).1.status = 200 ∧
      handleGetData refPlatform (handleSaveData refPlatform
          [("token:tok", ⟨"alice", some tokenTtl⟩), ("data:alice", ⟨"[1,2]", none⟩)]
          (some ("Bearer " ++ "tok")) (some (Json.obj []))).2 (some ("Bearer " ++ "tok")) =
        (jsonResponse refPlatform (Json.obj [("data", Json.obj [])]) 200,
          (handleSaveData refPlatform
            [("token:tok", ⟨"alice", some tokenTtl⟩), ("data:alice", ⟨"[1,2]", none⟩)]
            (some ("Bearer " ++ "tok")) (some (Json.obj []))).2) :=
  (save_then_get_returns_payload refPlatform
    [("token:tok", ⟨"alice", some tokenTtl⟩), ("data:alice", ⟨"[1,2]", none⟩)]
    "tok" "alice" (Json.obj []) (by decide) (by decide) (by decide)).1

/-- C5: `handleRegister` answers 400 exactly when the username length is outside [3,20] or
the password length is below 6; otherwise 409 when a record is held under `user:username`;
otherwise 200, and then `user:username` holds the JSON text of the record with the given
username and `passwordHash = simpleHash(password)`. Whenever the answer is not 200, the
store (the namespace) is unchanged. -/
theorem handleRegister_outcomes (P : Platform) (now : String) (kv : KV)
    (username password : String) :
    ((handleRegister P now kv username password).1.status = 400 ↔
      (jsLength username < 3 ∨ 20 < jsLength username ∨ jsLength password < 6)) ∧
    (¬(jsLength username < 3 ∨ 20 < jsLength username ∨ jsLength password < 6) →
      hasRecord kv ("user:" ++ username) = true →
      (handleRegister P now kv username password).1.status = 409) ∧
    (¬(jsLength username < 3 ∨ 20 < jsLength username ∨ jsLength password < 6) →
      hasRecord kv ("user:" ++ username) = false →
      (handleRegister P now kv username password).1.status = 200 ∧
      (handleRegister P now kv username password).2.lookup ("user:" ++ username) =
        some ⟨P.jsonStringify (Json.obj [("username", Json.str username),
          ("passwordHash", Json.str (simpleHash P password)),
          ("createdAt", Json.str now)]), none⟩) ∧
    ((handleRegister P now kv username password).1.status ≠ 200 →
      (handleRegister P now kv username password).2 = kv) := by
  unfold handleRegister hasRecord
  by_cases he : username = "" ∨ password = ""
  · have hbad : jsLength username < 3 ∨ 20 < jsLength username ∨ jsLength password < 6 := by
      rcases he with h | h
      · left; rw [h, jsLength_empty]; decide
      · right; right; rw [h, jsLength_empty]; decide
    simp [he, hbad, jsonResponse]
  · rw [if_neg he]
    by_cases hu : jsLength username < 3 ∨ jsLength username > 20
    · have hbad : jsLength username < 3 ∨ 20 < jsLength username ∨ jsLength password < 6 := by
        rcases hu with h | h
        · exact Or.inl h
        · exact Or.inr (Or.inl h)
      simp [hu, hbad, jsonResponse]
    · rw [if_neg hu]
      by_cases hp : jsLength password < 6
      · have hbad : jsLength username < 3 ∨ 20 < jsLength username ∨ jsLength password < 6 :=
          Or.inr (Or.inr hp)
        simp [hp, hbad, jsonResponse]
      · rw [if_neg hp]
        have hgood : ¬(jsLength username < 3 ∨ 20 < jsLength username ∨
            jsLength password < 6) := by
          rintro (h | h | h)
          · exact hu (Or.inl h)
          · exact hu (Or.inr h)
          · exact hp h
        cases hrec : truthyText (kvGet kv ("user:" ++ username)) with
        | some txt => simp [hgood, jsonResponse]
        | none => simp [hgood, jsonResponse, lookup_kvPut_same]

/-- C6: for non-empty username and password, `handleLogin` answers 404 when nothing is held
under `user:username`; 401 when a user record is held whose `passwordHash` differs from
`simpleHash(password)`; and otherwise 200 with the token of `generateToken`, after which
the store maps `token:<token>` to the username with a time-to-live of 30 days. In the 404
and 401 cases the store is unchanged, and in every case all `user:` entries are unchanged. -/
theorem handleLogin_outcomes (P : Platform) (timestamp : Nat) (random : String) (kv : KV)
    (username password : String) (hu : username ≠ "") (hp : password ≠ "") :
    (kvGet kv ("user:" ++ username) = none →
      handleLogin P timestamp random kv username password =
        (jsonResponse P (errorBody "用户不存在") 404, kv)) ∧
    (∀ h, UserRecordAt P kv username h → simpleHash P password ≠ h →
      handleLogin P timestamp random kv username password =
        (jsonResponse P (errorBody "密码错误") 401, kv)) ∧
    (∀ h, UserRecordAt P kv username h → simpleHash P password = h →
      (handleLogin P timestamp random kv username password).1 =
        jsonResponse P (Json.obj [("token", Json.str (generateToken timestamp random username)),
          ("username", Json.str username), ("message", Json.str "登录成功")]) 200 ∧
      (handleLogin P timestamp random kv username password).2.lookup
          ("token:" ++ generateToken timestamp random username) =
        some ⟨username, some (30 * 24 * 60 * 60)⟩) ∧
    (∀ v, (handleLogin P timestamp random kv username password).2.lookup ("user:" ++ v) =
      kv.lookup ("user:" ++ v)) := by
  refine ⟨?_, ?_, ?_, ?_⟩
  · intro hnone
    unfold handleLogin
    rw [if_neg (by simp [hu, hp]), hnone]
    rfl
  · intro h hrec hne
    rw [handleLogin_of_record P timestamp random hu hp hrec, if_pos hne]
  · intro h hrec heq
    rw [handleLogin_of_record P timestamp random hu hp hrec, if_neg (by simp [heq])]
    exact ⟨rfl, by rw [lookup_kvPut_same]; rfl⟩
  · intro v
    unfold handleLogin
    rw [if_neg (by simp [hu, hp])]
    split
    · rfl
    · split
      · rfl
      · simp only []
        split
        · rfl
        · exact lookup_kvPut_other kv _ _ (userKey_ne_tokenKey v _)

/-- Witness for C6: a registered user logs in on the reference platform and the token
entry is written with the 30-day time-to-live. -/
theorem handleLogin_outcomes_witness :
    (handleLogin refPlatform 1700000000000 "k3j2"
        (handleRegister refPlatform "2024-01-01T00:00:00.000Z" [] "alice" "secret1").2
        "alice" "secret1").2.lookup
        ("token:" ++ generateToken 1700000000000 "k3j2" "alice") =
      some ⟨"alice", some (30 * 24 * 60 * 60)⟩ :=
  ((handleLogin_outcomes refPlatform 1700000000000 "k3j2"
    (handleRegister refPlatform "2024-01-01T00:00:00.000Z" [] "alice" "secret1").2
    "alice" "secret1" (by decide) (by decide)).2.2.1 (simpleHash refPlatform "secret1")
      ⟨refPlatform.jsonStringify
          (userRecord refPlatform "2024-01-01T00:00:00.000Z" "alice" "secret1"),
        [("username", Json.str "alice"),
          ("passwordHash", Json.str (simpleHash refPlatform "secret1")),
          ("createdAt", Json.str "2024-01-01T00:00:00.000Z")],
        by decide, by decide, by decide, by decide⟩ rfl).2

/-- C7, as stated, fails: after a registration, a login with the empty password (a wrong
password, with a different digest) is answered with 400, not 401. -/
theorem login_empty_password_is_400 :
    "" ≠ "secret1" ∧ simpleHash refPlatform "" ≠ simpleHash refPlatform "secret1" ∧
    (handleRegister refPlatform "2024-01-01T00:00:00.000Z" [] "alice" "secret1").1.status = 200 ∧
    (handleLogin refPlatform 1700000000000 "k3j2"
      (handleRegister refPlatform "2024-01-01T00:00:00.000Z" [] "alice" "secret1").2
      "alice" "").1.status = 400 := by
  decide

/-- C7, amended: from a namespace with no record for u, with u of length 3..20 and p of length
at least 6 (and the platform reading the JSON text of the new user record back):
`handleRegister(u, p)` answers 200; a following `handleLogin(u, p)` answers 200 with a token
that resolves to u, so that `handleGetData` and `handleSaveData` with it are not answered
401; a login with a non-empty wrong password p' (whose digest differs from that of p) is
answered 401 and changes nothing; and a second `handleRegister(u, q)` with q of length at
least 6 is answered 409. -/
theorem register_then_login (P : Platform) (now now' : String) (timestamp timestamp' : Nat)
    (random random' : String) (kv : KV) (u p p' q : String) (D : Json)
    (hfresh : hasRecord kv ("user:" ++ u) = false)
    (hu3 : 3 ≤ jsLength u) (hu20 : jsLength u ≤ 20) (hp : 6 ≤ jsLength p)
    (hq : 6 ≤ jsLength q) (hrt : P.RoundTrips (userRecord P now u p))
    (hp' : p' ≠ "") (hcf : simpleHash P p' ≠ simpleHash P p) (hD : D.isMapping = true) :
    (handleRegister P now kv u p).1.status = 200 ∧
    (handleLogin P timestamp random (handleRegister P now kv u p).2 u p).1 =
      jsonResponse P (Json.obj [("token", Json.str (generateToken timestamp random u)),
        ("username", Json.str u), ("message", Json.str "登录成功")]) 200 ∧
    TokenResolves (handleLogin P timestamp random (handleRegister P now kv u p).2 u p).2
      (generateToken timestamp random u) u ∧
    (handleGetData P (handleLogin P timestamp random (handleRegister P now kv u p).2 u p).2
      (some ("Bearer " ++ generateToken timestamp random u))).1.status ≠ 401 ∧
    (handleSaveData P (handleLogin P timestamp random (handleRegister P now kv u p).2 u p).2
      (some ("Bearer " ++ generateToken timestamp random u)) (some D)).1.status = 200 ∧
    handleLogin P timestamp' random'
        (handleLogin P timestamp random (handleRegister P now kv u p).2 u p).2 u p' =
      (jsonResponse P (errorBody "密码错误") 401,
        (handleLogin P timestamp random (handleRegister P now kv u p).2 u p).2) ∧
    (handleRegister P now'
      (handleLogin P timestamp random (handleRegister P now kv u p).2 u p).2 u q).1.status =
      409 := by
  have hu : u ≠ "" := ne_empty_of_jsLength_pos (by omega)
  have hpw : p ≠ "" := ne_empty_of_jsLength_pos (by omega)
  have htok : generateToken timestamp random u ≠ "" := append_ne_empty_of_right hu
  rw [handleRegister_fresh P now kv hu3 hu20 hp hfresh]
  have hrec := userRecordAt_after_register P now kv hrt
  rw [handleLogin_of_record P timestamp random hu hpw hrec, if_neg (by simp)]
  have hrec2 := userRecordAt_kvPut_token hrec (generateToken timestamp random u) u
    (some tokenTtl)
  have hres : TokenResolves (kvPut (kvPut kv ("user:" ++ u)
      (P.jsonStringify (userRecord P now u p)) none)
      ("token:" ++ generateToken timestamp random u) u (some tokenTtl))
      (generateToken timestamp random u) u :=
    ⟨htok, hu, kvGet_kvPut_same _ _ _ _⟩
  refine ⟨rfl, rfl, hres, ?_, ?_, ?_, ?_⟩
  · rw [handleGetData_resolved P hres]
    split
    · simp [jsonResponse]
    · split <;> simp [jsonResponse]
  · rw [handleSaveData_resolved P hres D]
    have hobj : D.isNonNullObject = true := by
      cases D <;> simp_all [Json.isMapping, Json.isNonNullObject]
    simp [hobj, jsonResponse]
  · rw [handleLogin_of_record P timestamp' random' hu hp' hrec2, if_pos hcf]
  · rw [handleRegister_taken P now' hu3 hu20 hq hrec2]
    rfl

/-- Witness for C7 (amended): alice registers, logs in, mistypes her password and registers
again, on the reference platform. -/
theorem register_then_login_witness :
    handleLogin refPlatform 1700000000500 "9xq"
        (handleLogin refPlatform 1700000000000 "k3j2"
          (handleRegister refPlatform "2024-01-01T00:00:00.000Z" [] "alice" "secret1").2
          "alice" "secret1").2 "alice" "secret2" =
      (jsonResponse refPlatform (errorBody "密码错误") 401,
        (handleLogin refPlatform 1700000000000 "k3j2"
          (handleRegister refPlatform "2024-01-01T00:00:00.000Z" [] "alice" "secret1").2
          "alice" "secret1").2) ∧
    (handleRegister refPlatform "2024-01-02T00:00:00.000Z"
      (handleLogin refPlatform 1700000000000 "k3j2"
        (handleRegister refPlatform "2024-01-01T00:00:00.000Z" [] "alice" "secret1").2
        "alice" "secret1").2 "alice" "another").1.status = 409 :=
  (register_then_login refPlatform "2024-01-01T00:00:00.000Z" "2024-01-02T00:00:00.000Z"
    1700000000000 1700000000500 "k3j2" "9xq" [] "alice" "secret1" "secret2" "another"
    (Json.obj []) (by decide) (by decide) (by decide) (by decide) (by decide) (by decide)
    (by decide) (by decide) (by decide)).2.2.2.2.2

/-- C8: a request without a usable bearer token (header missing, not starting with
`Bearer `, or carrying a token the namespace has no entry for) is answered by both data
handlers with status 401 and a body that is the JSON text of `{ error: message }` for one
of two fixed messages, and the namespace is left as it was. -/
theorem unauthorized_requests_rejected (P : Platform) (kv : KV) (authorization : Option String)
    (body : Option Json) (h : Unauthorized kv authorization) :
    (∃ msg, (msg = "未授权访问" ∨ msg = "令牌无效或已过期") ∧
      handleGetData P kv authorization = (jsonResponse P (errorBody msg) 401, kv)) ∧
    (∃ msg, (msg = "未授权访问" ∨ msg = "令牌无效或已过期") ∧
      handleSaveData P kv authorization body = (jsonResponse P (errorBody msg) 401, kv)) := by
  rcases getTokenFromRequest_of_unauthorized h with h0 | ⟨t, h1, h2⟩
  · exact ⟨⟨_, Or.inl rfl, by unfold handleGetData; rw [h0]⟩,
      ⟨_, Or.inl rfl, by unfold handleSaveData; rw [h0]⟩⟩
  · exact ⟨⟨_, Or.inr rfl, by unfold handleGetData; rw [h1]; simp only [h2]⟩,
      ⟨_, Or.inr rfl, by unfold handleSaveData; rw [h1]; simp only [h2]⟩⟩

/-- Witness for C8: a token of another session, unknown to the namespace. -/
theorem unauthorized_requests_rejected_witness :
    (∃ msg, (msg = "未授权访问" ∨ msg = "令牌无效或已过期") ∧
      handleGetData refPlatform [("token:tok", ⟨"alice", some tokenTtl⟩)]
          (some ("Bearer " ++ "old")) =
        (jsonResponse refPlatform (errorBody msg) 401,
          [("token:tok", ⟨"alice", some tokenTtl⟩)])) ∧
    (∃ msg, (msg = "未授权访问" ∨ msg = "令牌无效或已过期") ∧
      handleSaveData refPlatform [("token:tok", ⟨"alice", some tokenTtl⟩)]
          (some ("Bearer " ++ "old")) (some (Json.obj [])) =
        (jsonResponse refPlatform (errorBody msg) 401,
          [("token:tok", ⟨"alice", some tokenTtl⟩)])) :=
  unauthorized_requests_rejected refPlatform [("token:tok", ⟨"alice", some tokenTtl⟩)]
    (some ("Bearer " ++ "old")) (some (Json.obj []))
    (Or.inr (Or.inr ⟨"old", rfl, by decide⟩))

/-- C9, as stated, fails: an array payload is answered with 200 and stored. -/
theorem save_array_accepted :
    handleSaveData refPlatform [("token:tok", ⟨"alice", some tokenTtl⟩)] (some "Bearer tok")
        (some (Json.arr [Json.num 1])) =
      (jsonResponse refPlatform (Json.obj [("message", Json.str "数据保存成功")]) 200,
        [("token:tok", ⟨"alice", some tokenTtl⟩), ("data:alice", ⟨"[1]", none⟩)]) := by
  decide

/-- C9, amended: with a token that resolves to user u, `handleSaveData` answers 400 and
leaves the namespace unchanged when the payload is `null`, a number, a string or a boolean;
when the payload is a mapping (or an array) it answers 200 and the entry under `data:u`
becomes the JSON text of that payload, whatever was stored before. -/
theorem handleSaveData_payload_check (P : Platform) (kv : KV) (t u : String) (payload : Json)
    (ht : TokenResolves kv t u) :
    (payload.isPrimitive = true →
      handleSaveData P kv (some ("Bearer " ++ t)) (some payload) =
        (jsonResponse P (errorBody "数据格式无效") 400, kv)) ∧
    (payload.isMapping = true ∨ payload.isArray = true →
      handleSaveData P kv (some ("Bearer " ++ t)) (some payload) =
        (jsonResponse P (Json.obj [("message", Json.str "数据保存成功")]) 200,
          kvPut kv ("data:" ++ u) (P.jsonStringify payload) none) ∧
      (handleSaveData P kv (some ("Bearer " ++ t)) (some payload)).2.lookup ("data:" ++ u) =
        some ⟨P.jsonStringify payload, none⟩) := by
  rw [handleSaveData_resolved P ht payload]
  constructor
  · intro h
    cases payload <;> simp_all [Json.isPrimitive, Json.isNonNullObject]
  · intro h
    have hobj : payload.isNonNullObject = true := by
      cases payload <;> simp_all [Json.isMapping, Json.isArray, Json.isNonNullObject]
    simp only [hobj, Bool.not_true, Bool.false_eq_true, if_false, lookup_kvPut_same, and_self]

/-- Witness for C9 (amended): a mapping replaces the array stored before. -/
theorem handleSaveData_payload_check_witness :
    (handleSaveData refPlatform
        [("token:tok", ⟨"alice", some tokenTtl⟩), ("data:alice", ⟨"[1]", none⟩)]
        (some ("Bearer " ++ "tok"))
        (some (Json.obj [("2024-3", Json.obj [("5", Json.str "full")])]))).2.lookup
        ("data:" ++ "alice") =
      some ⟨refPlatform.jsonStringify (Json.obj [("2024-3", Json.obj [("5", Json.str "full")])]),
        none⟩ :=
  ((handleSaveData_payload_check refPlatform
    [("token:tok", ⟨"alice", some tokenTtl⟩), ("data:alice", ⟨"[1]", none⟩)] "tok" "alice"
    (Json.obj [("2024-3", Json.obj [("5", Json.str "full")])]) (by decide)).2
      (Or.inl rfl)).2

/-- C10: the transition of `handleDayClick` sends normal to half, half to full and full to
normal; for each status s among the three, three applications return s while one or two
applications do not. -/
theorem nextStatus_period_three (s : String)
    (hs : s = "normal" ∨ s = "half" ∨ s = "full") :
    (nextStatus "normal" = "half" ∧ nextStatus "half" = "full" ∧
      nextStatus "full" = "normal") ∧
    nextStatus (nextStatus (nextStatus s)) = s ∧ nextStatus s ≠ s ∧
      nextStatus (nextStatus s) ≠ s := by
  rcases hs with rfl | rfl | rfl <;> decide

/-- Witness for C10: the cycle through half. -/
theorem nextStatus_period_three_witness :
    nextStatus (nextStatus (nextStatus "half")) = "half" ∧ nextStatus "half" ≠ "half" ∧
      nextStatus (nextStatus "half") ≠ "half" :=
  (nextStatus_period_three "half" (Or.inr (Or.inl rfl))).2


/-- C11: on a dataset in which no month-key maps to an empty day mapping, the same holds after
`saveDayStatus(day, status)` for every day and every status (the three statuses included),
after `resetCurrentMonth` (confirmed or not), and for `mergeData(L, R)` when it holds for the
datasets L and R; after a write no month-key at all, the written one included, reads as an
empty mapping. -/
theorem noEmptyMonth_invariant (P : Platform) (year month day : Nat) (status : String)
    (confirmed : Bool) (tracker : Tracker) (kv : KV) (d r : Members)
    (ht : tracker.overtimeData = Json.obj d) (hd : IsDataset d) (hr : IsDataset r)
    (hinv : NoEmptyMonth d) (hinvr : NoEmptyMonth r) :
    (∃ out d', saveDayStatus P year month tracker kv day status = some out ∧
      out.1.overtimeData = Json.obj d' ∧ NoEmptyMonth d' ∧
      ∀ k, d'.lookup k ≠ some (Json.obj [])) ∧
    (∃ out d', resetCurrentMonth P year month confirmed tracker kv = some out ∧
      out.1.overtimeData = Json.obj d' ∧ NoEmptyMonth d') ∧
    (∃ m, mergeData (Json.obj d) (Json.obj r) = some (Json.obj m) ∧ NoEmptyMonth m) := by
  refine ⟨?_, ?_, ?_⟩
  · obtain ⟨d', hsave, -, hmem, -⟩ := saveDayStatusData_spec (fun p hp => (hd.2 p hp).2)
      (hyphen_mem_monthKey year month) day status
    obtain ⟨out, hout, hdata⟩ := saveDayStatus_of_data P year month kv day status ht hsave
    have hne : NoEmptyMonth d' := by
      intro p hp
      rcases hmem p hp with h | h
      · exact hinv p h
      · exact h
    exact ⟨out, d', hout, hdata, hne, fun k hk => hne _ (mem_of_lookup hk) rfl⟩
  · unfold resetCurrentMonth
    cases confirmed with
    | false => exact ⟨_, d, rfl, ht, hinv⟩
    | true =>
      have hne : NoEmptyMonth (deleteProp d (monthKey year month)) :=
        fun p hp => hinv p (mem_deleteProp.1 hp).1
      simp only [Bool.not_true, Bool.false_eq_true, if_false, ht, deleteMember]
      cases truthyText tracker.userToken with
      | none => exact ⟨_, _, rfl, rfl, hne⟩
      | some t => exact ⟨_, _, rfl, rfl, hne⟩
  · refine ⟨_, mergeData_of_datasets hd hr, ?_⟩
    intro p hp
    rcases List.mem_append.1 hp with h | h
    · exact hinvr p h
    · exact hinv p (List.mem_filter.1 h).1

/-- Witness for C11: the only day of January is set back to normal, and the month goes. -/
theorem noEmptyMonth_invariant_witness :
    ∃ out d', saveDayStatus refPlatform 2024 1 syncTracker syncStore 2 "normal" = some out ∧
      out.1.overtimeData = Json.obj d' ∧ NoEmptyMonth d' ∧
      ∀ k, d'.lookup k ≠ some (Json.obj []) :=
  (noEmptyMonth_invariant refPlatform 2024 1 2 "normal" true syncTracker syncStore
    [("2024-1", Json.obj [("2", Json.str "full")])]
    [("2024-2", Json.obj [("5", Json.str "half")])]
    rfl (by decide) (by decide) (by decide) (by decide)).1

/-- C12: on a dataset, with m the current month-key, `saveDayStatus(d, s)` leaves every other
month-key and every other day of m with its previous value; for s other than normal (half
and full included) the dataset then maps m to a day mapping in which d has status s; for
s = normal there is no entry for d under m afterwards, and no entry for m at all when m had
no day other than d. -/
theorem saveDayStatus_effect (P : Platform) (year month day : Nat) (status : String)
    (tracker : Tracker) (kv : KV) (d : Members)
    (ht : tracker.overtimeData = Json.obj d) (hd : IsDataset d) :
    ∃ out d', saveDayStatus P year month tracker kv day status = some out ∧
      out.1.overtimeData = Json.obj d' ∧
      (∀ k, k ≠ monthKey year month → d'.lookup k = d.lookup k) ∧
      (∀ k, k ≠ toString day →
        (dayMapping d' (monthKey year month)).lookup k =
          (dayMapping d (monthKey year month)).lookup k) ∧
      (status ≠ "normal" → ∃ days, d'.lookup (monthKey year month) = some (Json.obj days) ∧
        days.lookup (toString day) = some (Json.str status)) ∧
      (status = "normal" →
        (d'.lookup (monthKey year month) = none ∨
          ∃ days, d'.lookup (monthKey year month) = some (Json.obj days) ∧
            days.lookup (toString day) = none) ∧
        ((∀ k ∈ keys (dayMapping d (monthKey year month)), k = toString day) →
          d'.lookup (monthKey year month) = none)) := by
  obtain ⟨d', hsave, hother, -, hset, hgone, hleft⟩ :=
    saveDayStatusData_spec (fun p hp => (hd.2 p hp).2) (hyphen_mem_monthKey year month) day
      status
  obtain ⟨out, hout, hdata⟩ := saveDayStatus_of_data P year month kv day status ht hsave
  refine ⟨out, d', hout, hdata, hother, ?_, ?_, ?_⟩
  · intro k hk
    by_cases hs : status = "normal"
    · by_cases he : deleteProp (dayMapping d (monthKey year month)) (toString day) = []
      · have hnone := hgone hs he
        have hall := (deleteProp_eq_nil_iff _ _).1 he
        have hk' : k ∉ keys (dayMapping d (monthKey year month)) := fun h => hk (hall k h)
        rw [(lookup_eq_none_iff_not_mem_keys _ k).2 hk']
        simp [dayMapping, hnone]
      · have hsome := hleft hs he
        have : dayMapping d' (monthKey year month) =
            deleteProp (dayMapping d (monthKey year month)) (toString day) := by
          simp [dayMapping, hsome]
        rw [this, lookup_deleteProp_other _ hk]
    · have hsome := hset hs
      have : dayMapping d' (monthKey year month) =
          setProp (dayMapping d (monthKey year month)) (toString day) (Json.str status) := by
        simp [dayMapping, hsome]
      rw [this, lookup_setProp_other _ _ hk]
  · intro hs
    exact ⟨_, hset hs, lookup_setProp_same _ _ _⟩
  · intro hs
    constructor
    · by_cases he : deleteProp (dayMapping d (monthKey year month)) (toString day) = []
      · exact Or.inl (hgone hs he)
      · exact Or.inr ⟨_, hleft hs he, lookup_deleteProp_same _ _⟩
    · intro hall
      exact hgone hs ((deleteProp_eq_nil_iff _ _).2 hall)

/-- Witness for C12: day 5 of January 2024 is set to half next to day 2. -/
theorem saveDayStatus_effect_witness :
    ∃ out d', saveDayStatus refPlatform 2024 1 syncTracker syncStore 5 "half" = some out ∧
      out.1.overtimeData = Json.obj d' ∧
      (∃ days, d'.lookup (monthKey 2024 1) = some (Json.obj days) ∧
        days.lookup (toString 5) = some (Json.str "half")) ∧
      (dayMapping d' (monthKey 2024 1)).lookup "2" = some (Json.str "full") := by
  obtain ⟨out, d', hout, hdata, -, hdays, hset, -⟩ :=
    saveDayStatus_effect refPlatform 2024 1 5 "half" syncTracker syncStore
      [("2024-1", Json.obj [("2", Json.str "full")])] rfl (by decide)
  exact ⟨out, d', hout, hdata, hset (by decide), by rw [hdays "2" (by decide)]; decide⟩

/-- C13 fails on the code: a file holding the JSON string `ab` (and likewise one holding the
array `[7]`) is not rejected: `importData` announces success and `overtimeData` gains the
keys `0` and `1`; only text that is not JSON ends in the failure alert with the dataset
untouched. -/
theorem importData_accepts_non_mapping :
    refParse (refStringify (Json.str "ab")) = some (Json.str "ab") ∧
    (importData refPlatform syncTracker syncStore (some (refStringify (Json.str "ab")))).alert =
      some "数据导入成功！" ∧
    (importData refPlatform syncTracker syncStore
        (some (refStringify (Json.str "ab")))).tracker.overtimeData =
      Json.obj [("0", Json.str "a"), ("1", Json.str "b"),
        ("2024-1", Json.obj [("2", Json.str "full")])] ∧
    (importData refPlatform syncTracker syncStore
        (some (refStringify (Json.str "ab")))).tracker.overtimeData ≠
      syncTracker.overtimeData ∧
    (importData refPlatform syncTracker syncStore (some "[7]")).tracker.overtimeData =
      Json.obj [("0", Json.num 7), ("2024-1", Json.obj [("2", Json.str "full")])] ∧
    (importData refPlatform syncTracker syncStore (some "oops")).alert =
      some "导入失败：文件格式不正确" ∧
    (importData refPlatform syncTracker syncStore (some "oops")).tracker.overtimeData =
      syncTracker.overtimeData := by
  decide

/-- C14: with a token that resolves to user u and any request body, `handleSaveData` changes
at most the key `data:u`: every other key, hence every `user:` entry, every `token:` entry
and every `data:v` with v other than u, keeps its entry, and `handleGetData` with a token
that resolves to another user v answers the same before and after the save. -/
theorem handleSaveData_isolation (P : Platform) (kv : KV) (t u : String) (body : Option Json)
    (ht : TokenResolves kv t u) :
    (∀ key, key ≠ "data:" ++ u →
      (handleSaveData P kv (some ("Bearer " ++ t)) body).2.lookup key = kv.lookup key) ∧
    (∀ v, (handleSaveData P kv (some ("Bearer " ++ t)) body).2.lookup ("user:" ++ v) =
      kv.lookup ("user:" ++ v)) ∧
    (∀ t', (handleSaveData P kv (some ("Bearer " ++ t)) body).2.lookup ("token:" ++ t') =
      kv.lookup ("token:" ++ t')) ∧
    (∀ v, v ≠ u → (handleSaveData P kv (some ("Bearer " ++ t)) body).2.lookup ("data:" ++ v) =
      kv.lookup ("data:" ++ v)) ∧
    (∀ t' v, TokenResolves kv t' v → v ≠ u →
      (handleGetData P (handleSaveData P kv (some ("Bearer " ++ t)) body).2
        (some ("Bearer " ++ t'))).1 = (handleGetData P kv (some ("Bearer " ++ t'))).1) := by
  have hkey : ∀ key, key ≠ "data:" ++ u →
      (handleSaveData P kv (some ("Bearer " ++ t)) body).2.lookup key = kv.lookup key := by
    intro key hne
    rcases handleSaveData_store P ht body with h | ⟨text, h⟩
    · rw [h]
    · rw [h]
      exact lookup_kvPut_other kv text none hne
  have hdata : ∀ v, v ≠ u → "data:" ++ v ≠ "data:" ++ u := fun v hv e => hv (dataKey_injective e)
  refine ⟨hkey, fun v => hkey _ (userKey_ne_dataKey v u), fun t' => hkey _ (tokenKey_ne_dataKey t' u),
    fun v hv => hkey _ (hdata v hv), ?_⟩
  intro t' v hres hv
  have hget : ∀ key, key ≠ "data:" ++ u →
      kvGet (handleSaveData P kv (some ("Bearer " ++ t)) body).2 key = kvGet kv key := by
    intro key hne
    unfold kvGet
    rw [hkey key hne]
  exact handleGetData_response_congr P hres
    ⟨hres.1, hres.2.1, by rw [hget _ (tokenKey_ne_dataKey t' u)]; exact hres.2.2⟩
    (hget _ (hdata v hv))

/-- Witness for C14: alice saves while bob has a token and a stored dataset. -/
theorem handleSaveData_isolation_witness :
    (handleGetData refPlatform
        (handleSaveData refPlatform
          [("token:tok", ⟨"alice", some tokenTtl⟩), ("token:bt", ⟨"bob", some tokenTtl⟩),
            ("data:bob", ⟨"[1]", none⟩)]
          (some ("Bearer " ++ "tok")) (some (Json.obj []))).2
        (some ("Bearer " ++ "bt"))).1 =
      (handleGetData refPlatform
        [("token:tok", ⟨"alice", some tokenTtl⟩), ("token:bt", ⟨"bob", some tokenTtl⟩),
          ("data:bob", ⟨"[1]", none⟩)]
        (some ("Bearer " ++ "bt"))).1 :=
  (handleSaveData_isolation refPlatform
    [("token:tok", ⟨"alice", some tokenTtl⟩), ("token:bt", ⟨"bob", some tokenTtl⟩),
      ("data:bob", ⟨"[1]", none⟩)]
    "tok" "alice" (some (Json.obj [])) (by decide)).2.2.2.2 "bt" "bob" (by decide) (by decide)

end Jb2
